import Mathlib

/-!
# k8s-practice-controller: `practice2/cmd/incluster/main.go`

A shallow embedding of the demonstration client: the two resource objects it
builds, the four helpers `createDeployment`, `deleteDeployment`,
`createService`, `deleteService`, and `main` as a transition system in which
the main goroutine, the observer goroutine and signal delivery interleave.

The API server is a parameter (`Interface σ`): an arbitrary function of an
arbitrary server state, so every theorem quantified over the client holds for
every sequence of responses the server may give.  Every call that goes through
the client is appended, with its response, to a recorded call sequence.

Granularity.  A step of the main goroutine is one statement of `main` (a call of
a helper runs to its return or to its panic); a step of the observer goroutine
is the `Get` with its error check, or the `Printf` with the sleep that follows.
Time is not modelled: the sleep takes no step.  A panic, the return of `main`
and a signal that arrives before `signal.Notify` end the process at once, and a
process that has ended takes no further step.
-/

namespace Practice2

/-! ## Data model (the fields of the Kubernetes API types the program sets or reads) -/

/-- Go `map[string]string`, as an association list. -/
abbrev Labels := List (String × String)

/-- Every pair of `a` occurs in `b` with the same value. -/
def labelsSubset (a b : Labels) : Bool :=
  a.all (fun kv => b.lookup kv.1 == some kv.2)

/-- `corev1.Protocol`. -/
inductive Protocol where
  | TCP
  | UDP
  | SCTP
  deriving DecidableEq, Repr

/-- `metav1.ObjectMeta`. -/
structure ObjectMeta where
  name : String := ""
  «namespace» : String := ""
  labels : Labels := []
  deriving DecidableEq, Repr

/-- `metav1.LabelSelector`. -/
structure LabelSelector where
  matchLabels : Labels := []
  deriving DecidableEq, Repr

/-- `corev1.ContainerPort`. -/
structure ContainerPort where
  name : String := ""
  containerPort : Int := 0
  protocol : Protocol := .TCP
  deriving DecidableEq, Repr

/-- `corev1.Container`. -/
structure Container where
  name : String := ""
  image : String := ""
  ports : List ContainerPort := []
  deriving DecidableEq, Repr

/-- `corev1.PodSpec`. -/
structure PodSpec where
  containers : List Container := []
  deriving DecidableEq, Repr

/-- `corev1.PodTemplateSpec`. -/
structure PodTemplateSpec where
  objectMeta : ObjectMeta := {}
  spec : PodSpec := {}
  deriving DecidableEq, Repr

/-- `appv1.DeploymentSpec`; `replicas` and `selector` are pointers in Go. -/
structure DeploymentSpec where
  replicas : Option Int := none
  selector : Option LabelSelector := none
  template : PodTemplateSpec := {}
  deriving DecidableEq, Repr

/-- `appv1.Deployment`. -/
structure Deployment where
  objectMeta : ObjectMeta := {}
  spec : DeploymentSpec := {}
  deriving DecidableEq, Repr

/-- `corev1.ServiceType`. -/
inductive ServiceType where
  | ClusterIP
  | NodePort
  | LoadBalancer
  | ExternalName
  deriving DecidableEq, Repr

/-- `intstr.Type`: the zero value is `Int`. -/
inductive IntstrType where
  | Int
  | String
  deriving DecidableEq, Repr

/-- `intstr.IntOrString`. -/
structure IntOrString where
  type : IntstrType := .Int
  intVal : Int := 0
  strVal : String := ""
  deriving DecidableEq, Repr

/-- `corev1.ServicePort`. -/
structure ServicePort where
  name : String := ""
  port : Int := 0
  targetPort : IntOrString := {}
  nodePort : Int := 0
  protocol : Protocol := .TCP
  deriving DecidableEq, Repr

/-- `corev1.ServiceSpec`. -/
structure ServiceSpec where
  selector : Labels := []
  type : ServiceType := .ClusterIP
  ports : List ServicePort := []
  deriving DecidableEq, Repr

/-- `corev1.Service`. -/
structure Service where
  objectMeta : ObjectMeta := {}
  spec : ServiceSpec := {}
  deriving DecidableEq, Repr

/-- `dm.GetName()`. -/
def Deployment.GetName (dm : Deployment) : String := dm.objectMeta.name

/-- `dm.GetNamespace()`. -/
def Deployment.GetNamespace (dm : Deployment) : String := dm.objectMeta.«namespace»

/-- `sm.GetName()`. -/
def Service.GetName (sm : Service) : String := sm.objectMeta.name

/-- `sm.GetNamespace()`. -/
def Service.GetNamespace (sm : Service) : String := sm.objectMeta.«namespace»

/-! ## The API client and the recorded call sequence -/

/-- The five typed-client methods of `kubernetes.Interface` the program uses.
`σ` is the API server's state; a method returns the response and the next
server state.  `Create`/`Get` return a descriptor or an error, `Delete`
returns an optional error. -/
structure Interface (σ : Type) where
  deploymentsCreate : String → Deployment → σ → Except String Deployment × σ
  deploymentsGet : String → String → σ → Except String Deployment × σ
  deploymentsDelete : String → String → σ → Option String × σ
  servicesCreate : String → Service → σ → Except String Service × σ
  servicesDelete : String → String → σ → Option String × σ

/-- One API call: the method, the namespace it is scoped to, and its argument. -/
inductive ApiCall where
  | createDeployment (ns : String) (obj : Deployment)
  | getDeployment (ns : String) (name : String)
  | deleteDeployment (ns : String) (name : String)
  | createService (ns : String) (obj : Service)
  | deleteService (ns : String) (name : String)
  deriving DecidableEq, Repr

/-- The server's answer to one call. -/
inductive ApiResult where
  | deployment (d : Deployment)
  | service (s : Service)
  | ack
  | error (msg : String)
  deriving DecidableEq, Repr

/-- One entry of the recorded call sequence. -/
structure CallRecord where
  call : ApiCall
  result : ApiResult
  deriving DecidableEq, Repr

/-- The namespace a call is scoped to. -/
def ApiCall.ns : ApiCall → String
  | .createDeployment ns _ => ns
  | .getDeployment ns _ => ns
  | .deleteDeployment ns _ => ns
  | .createService ns _ => ns
  | .deleteService ns _ => ns

def ApiCall.isCreate : ApiCall → Bool
  | .createDeployment _ _ => true
  | .createService _ _ => true
  | _ => false

def ApiCall.isDelete : ApiCall → Bool
  | .deleteDeployment _ _ => true
  | .deleteService _ _ => true
  | _ => false

def ApiCall.isGet : ApiCall → Bool
  | .getDeployment _ _ => true
  | _ => false

def ApiCall.isDeleteService : ApiCall → Bool
  | .deleteService _ _ => true
  | _ => false

def ApiResult.isError : ApiResult → Bool
  | .error _ => true
  | _ => false

/-- The call was answered without an error. -/
def CallRecord.ok (r : CallRecord) : Bool := !r.result.isError

/-- A line written to standard output, kept structured; `Output.render` is the text. -/
inductive Output where
  | createdDeployment (ns name : String)
  | createdService (ns name : String)
  | readDeployment (ns name : String)
  | waiting
  | deleteDeployment (ns name : String)
  | deletedDeployment (ns name : String)
  | deleteService (ns name : String)
  | deletedService (ns name : String)
  deriving DecidableEq, Repr

/-- The text of the `fmt.Printf`/`fmt.Println` call that produced the line. -/
def Output.render : Output → String
  | .createdDeployment ns name => "Created Deployment " ++ ns ++ "/" ++ name ++ "\n"
  | .createdService ns name => "Created Service " ++ ns ++ "/" ++ name ++ "\n"
  | .readDeployment ns name => "Read Deployment " ++ ns ++ "/" ++ name ++ "\n"
  | .waiting => "Waiting for Kill Signal...\n"
  | .deleteDeployment ns name => "Delete Deployment " ++ ns ++ "/" ++ name ++ " "
  | .deletedDeployment ns name => "Deleted Deployment " ++ ns ++ "/" ++ name ++ "\n"
  | .deleteService ns name => "Delete Service " ++ ns ++ "/" ++ name ++ " "
  | .deletedService ns name => "Deleted Service " ++ ns ++ "/" ++ name ++ "\n"

/-- Everything outside the program: the server state, the calls recorded so
far, and the lines printed so far. -/
structure World (σ : Type) where
  server : σ
  calls : List CallRecord := []
  out : List Output := []

/-- A Go call either returns a value or panics with a message. -/
inductive Outcome (α : Type) where
  | ok (a : α)
  | panic (msg : String)
  deriving DecidableEq, Repr

variable {σ : Type}

/-- `client.AppsV1().Deployments(ns).Create(ctx, obj, opts)`, recorded. -/
def World.deploymentsCreate (client : Interface σ) (ns : String) (obj : Deployment)
    (w : World σ) : Except String Deployment × World σ :=
  match client.deploymentsCreate ns obj w.server with
  | (.ok d, srv) =>
    (.ok d, { w with server := srv, calls := w.calls ++ [⟨.createDeployment ns obj, .deployment d⟩] })
  | (.error err, srv) =>
    (.error err, { w with server := srv, calls := w.calls ++ [⟨.createDeployment ns obj, .error err⟩] })

/-- `client.AppsV1().Deployments(ns).Get(ctx, name, opts)`, recorded. -/
def World.deploymentsGet (client : Interface σ) (ns name : String)
    (w : World σ) : Except String Deployment × World σ :=
  match client.deploymentsGet ns name w.server with
  | (.ok d, srv) =>
    (.ok d, { w with server := srv, calls := w.calls ++ [⟨.getDeployment ns name, .deployment d⟩] })
  | (.error err, srv) =>
    (.error err, { w with server := srv, calls := w.calls ++ [⟨.getDeployment ns name, .error err⟩] })

/-- `client.AppsV1().Deployments(ns).Delete(ctx, name, opts)`, recorded. -/
def World.deploymentsDelete (client : Interface σ) (ns name : String)
    (w : World σ) : Option String × World σ :=
  match client.deploymentsDelete ns name w.server with
  | (none, srv) =>
    (none, { w with server := srv, calls := w.calls ++ [⟨.deleteDeployment ns name, .ack⟩] })
  | (some err, srv) =>
    (some err, { w with server := srv, calls := w.calls ++ [⟨.deleteDeployment ns name, .error err⟩] })

/-- `client.CoreV1().Services(ns).Create(ctx, obj, opts)`, recorded. -/
def World.servicesCreate (client : Interface σ) (ns : String) (obj : Service)
    (w : World σ) : Except String Service × World σ :=
  match client.servicesCreate ns obj w.server with
  | (.ok d, srv) =>
    (.ok d, { w with server := srv, calls := w.calls ++ [⟨.createService ns obj, .service d⟩] })
  | (.error err, srv) =>
    (.error err, { w with server := srv, calls := w.calls ++ [⟨.createService ns obj, .error err⟩] })

/-- `client.CoreV1().Services(ns).Delete(ctx, name, opts)`, recorded. -/
def World.servicesDelete (client : Interface σ) (ns name : String)
    (w : World σ) : Option String × World σ :=
  match client.servicesDelete ns name w.server with
  | (none, srv) =>
    (none, { w with server := srv, calls := w.calls ++ [⟨.deleteService ns name, .ack⟩] })
  | (some err, srv) =>
    (some err, { w with server := srv, calls := w.calls ++ [⟨.deleteService ns name, .error err⟩] })

/-- `fmt.Printf`/`fmt.Println`. -/
def World.print (o : Output) (w : World σ) : World σ :=
  { w with out := w.out ++ [o] }

/-! ## The program -/

/-- `var namespace = "default"`. -/
def «namespace» : String := "default"

/-- `var portnum int32 = 80`. -/
def portnum : Int := 80

/-- `int32Ptr`. -/
def int32Ptr (i : Int) : Option Int := some i

/-- The object `createDeployment` builds (the struct literal, then
`dm.Namespace = namespace`). -/
def deploymentObject : Deployment :=
  let dm : Deployment :=
    { objectMeta :=
        { name := "hello-app1"
          labels := [("fy20047-k8s", "practice2")] }
      spec :=
        { replicas := int32Ptr 1
          selector := some { matchLabels := [("fy20047-k8s", "practice2")] }
          template :=
            { objectMeta := { labels := [("fy20047-k8s", "practice2")] }
              spec :=
                { containers :=
                    [ { name := "nginx-container"
                        image := "nginx:1.14.2"
                        ports :=
                          [ { name := "http"
                              containerPort := 80
                              protocol := .TCP } ] } ] } } } }
  { dm with objectMeta := { dm.objectMeta with «namespace» := «namespace» } }

/-- `createDeployment`: submit the object to `Deployments(namespace)`; panic on
an error, otherwise print and return the descriptor the server returned. -/
def createDeployment (client : Interface σ) (w : World σ) : Outcome Deployment × World σ :=
  let dm := deploymentObject
  match w.deploymentsCreate client «namespace» dm with
  | (.error err, w) => (.panic err, w)
  | (.ok dm, w) =>
    (.ok dm, w.print (.createdDeployment dm.GetNamespace dm.GetName))

/-- `deleteDeployment`: delete by the descriptor's namespace and name; panic on
an error, otherwise print. -/
def deleteDeployment (client : Interface σ) (dm : Deployment) (w : World σ) :
    Outcome Unit × World σ :=
  match w.deploymentsDelete client dm.GetNamespace dm.GetName with
  | (some err, w) => (.panic err, w)
  | (none, w) => (.ok (), w.print (.deletedDeployment dm.GetNamespace dm.GetName))

/-- The object `createService` builds (the struct literal, then
`sm.Namespace = namespace`). -/
def serviceObject : Service :=
  let sm : Service :=
    { objectMeta :=
        { name := "hello-service"
          labels := [("fy20047-k8s", "practice2")] }
      spec :=
        { selector := [("fy20047-k8s", "practice2")]
          type := .NodePort
          ports :=
            [ { name := "http"
                port := 80
                targetPort := { intVal := portnum }
                nodePort := 30080
                protocol := .TCP } ] } }
  { sm with objectMeta := { sm.objectMeta with «namespace» := «namespace» } }

/-- `createService`: submit the object to `Services(namespace)`; panic on an
error, otherwise print and return the descriptor the server returned. -/
def createService (client : Interface σ) (w : World σ) : Outcome Service × World σ :=
  let sm := serviceObject
  match w.servicesCreate client «namespace» sm with
  | (.error err, w) => (.panic err, w)
  | (.ok sm, w) =>
    (.ok sm, w.print (.createdService sm.GetNamespace sm.GetName))

/-- `deleteService`: delete by the descriptor's namespace and name; panic on an
error, otherwise print. -/
def deleteService (client : Interface σ) (sm : Service) (w : World σ) :
    Outcome Unit × World σ :=
  match w.servicesDelete client sm.GetNamespace sm.GetName with
  | (some err, w) => (.panic err, w)
  | (none, w) => (.ok (), w.print (.deletedService sm.GetNamespace sm.GetName))

/-! ## `main` as a transition system -/

/-- `rest.Config`, kept abstract. -/
structure Config where
  host : String
  deriving DecidableEq, Repr

/-- What `main` obtains from its surroundings before the first API call: the
`outside-cluster` flag and the results of the library calls that build the
clientset. -/
structure Env where
  outsideCluster : Bool
  userHomeDir : Except String String
  pathJoin : String → String → String
  buildConfigFromFlags : String → String → Except String Config
  inClusterConfig : Except String Config
  newForConfig : Config → Except String Unit

/-- Lines 33-62 of `main`: build the clientset or panic. -/
def connect (env : Env) : Outcome Unit :=
  if env.outsideCluster then
    match env.userHomeDir with
    | .error err => .panic err
    | .ok home =>
      match env.buildConfigFromFlags "" (env.pathJoin home ".kube/config") with
      | .error err => .panic err
      | .ok config =>
        match env.newForConfig config with
        | .error err => .panic err
        | .ok _ => .ok ()
  else
    match env.inClusterConfig with
    | .error err => .panic err
    | .ok config =>
      match env.newForConfig config with
      | .error err => .panic err
      | .ok _ => .ok ()

/-- Where the main goroutine is, with the locals `dm` and `sm` once assigned. -/
inductive Pc where
  /-- lines 33-62 -/
  | connect
  /-- line 67 -/
  | createDeployment
  /-- line 68 -/
  | createService (dm : Deployment)
  /-- line 72, the `go` statement -/
  | spawn (dm : Deployment) (sm : Service)
  /-- lines 92-94 -/
  | notify (dm : Deployment) (sm : Service)
  /-- line 95, the receive from `stopChan` -/
  | wait (dm : Deployment) (sm : Service)
  /-- lines 97-98 -/
  | deleteDeployment (dm : Deployment) (sm : Service)
  /-- lines 99-100 -/
  | deleteService (dm : Deployment) (sm : Service)
  /-- line 101, `main` has returned -/
  | returned (dm : Deployment) (sm : Service)
  deriving DecidableEq, Repr

/-- Where the observer goroutine (lines 72-89) is; `dm` is the captured variable. -/
inductive Observer where
  | notStarted
  /-- about to call `Get` (lines 74-81), also after the sleep -/
  | get (dm : Deployment)
  /-- `Get` returned `read` without an error; line 86 is next -/
  | report (dm : Deployment) (read : Deployment)
  deriving DecidableEq, Repr

/-- Whether the process is alive and, if not, how it ended. -/
inductive Status where
  | running
  | exited
  | panicked (msg : String)
  | killed
  deriving DecidableEq, Repr

/-- The state of the process and of its surroundings. -/
structure State (σ : Type) where
  world : World σ
  pc : Pc := .connect
  observer : Observer := .notStarted
  /-- `signal.Notify` has been called -/
  notified : Bool := false
  /-- `stopChan` (capacity 1) holds a signal -/
  stopChan : Bool := false
  /-- the receive from `stopChan` has completed -/
  signalled : Bool := false
  status : Status := .running

/-- What can happen next: the main goroutine runs to its next statement, the
observer goroutine runs to its next statement, or the operating system
delivers an interrupt or termination signal. -/
inductive Event where
  | main
  | observer
  | signal
  deriving DecidableEq, Repr

/-- One statement of the main goroutine. -/
def stepMain (client : Interface σ) (env : Env) (s : State σ) : State σ :=
  match s.pc with
  | .connect =>
    match connect env with
    | .panic msg => { s with status := .panicked msg }
    | .ok _ => { s with pc := .createDeployment }
  | .createDeployment =>
    match createDeployment client s.world with
    | (.panic msg, w) => { s with world := w, status := .panicked msg }
    | (.ok dm, w) => { s with world := w, pc := .createService dm }
  | .createService dm =>
    match createService client s.world with
    | (.panic msg, w) => { s with world := w, status := .panicked msg }
    | (.ok sm, w) => { s with world := w, pc := .spawn dm sm }
  | .spawn dm sm => { s with observer := .get dm, pc := .notify dm sm }
  | .notify dm sm =>
    { s with world := s.world.print .waiting, notified := true, pc := .wait dm sm }
  | .wait dm sm =>
    if s.stopChan then
      { s with stopChan := false, signalled := true, pc := .deleteDeployment dm sm }
    else s
  | .deleteDeployment dm sm =>
    match deleteDeployment client dm
        (s.world.print (.deleteDeployment «namespace» dm.GetName)) with
    | (.panic msg, w) => { s with world := w, status := .panicked msg }
    | (.ok _, w) => { s with world := w, pc := .deleteService dm sm }
  | .deleteService dm sm =>
    match deleteService client sm
        (s.world.print (.deleteService «namespace» sm.GetName)) with
    | (.panic msg, w) => { s with world := w, status := .panicked msg }
    | (.ok _, w) => { s with world := w, pc := .returned dm sm, status := .exited }
  | .returned _ _ => s

/-- One statement of the observer goroutine: the `Get` with its error check, or
the `Printf` followed by the sleep. -/
def stepObserver (client : Interface σ) (s : State σ) : State σ :=
  match s.observer with
  | .notStarted => s
  | .get dm =>
    match s.world.deploymentsGet client «namespace» dm.GetName with
    | (.error err, w) => { s with world := w, status := .panicked err }
    | (.ok read, w) => { s with world := w, observer := .report dm read }
  | .report dm read =>
    { s with world := s.world.print (.readDeployment «namespace» read.GetName),
             observer := .get dm }

/-- Delivery of an interrupt or termination signal: queued on `stopChan` once
`signal.Notify` has run (dropped if the channel is full), otherwise the default
disposition ends the process. -/
def stepSignal (s : State σ) : State σ :=
  if s.notified then { s with stopChan := true } else { s with status := .killed }

/-- One step; a process that has ended takes no further step. -/
def step (client : Interface σ) (env : Env) (s : State σ) (e : Event) : State σ :=
  match s.status with
  | .running =>
    match e with
    | .main => stepMain client env s
    | .observer => stepObserver client s
    | .signal => stepSignal s
  | _ => s

/-- The initial state of the process against a server in state `srv`. -/
def init (srv : σ) : State σ := { world := { server := srv } }

/-- The state after the events `es`, from the initial state. -/
def run (client : Interface σ) (env : Env) (srv : σ) (es : List Event) : State σ :=
  es.foldl (step client env) (init srv)

/-! ## Test doubles -/

/-- The store of an in-memory API server. -/
structure FakeStore where
  deployments : List Deployment := []
  services : List Service := []
  deriving DecidableEq, Repr

/-- Whether the store holds a deployment under `ns`/`name`. -/
def FakeStore.hasDeployment (st : FakeStore) (ns name : String) : Bool :=
  st.deployments.any (fun d => d.GetNamespace == ns && d.GetName == name)

/-- Whether the store holds a service under `ns`/`name`. -/
def FakeStore.hasService (st : FakeStore) (ns name : String) : Bool :=
  st.services.any (fun d => d.GetNamespace == ns && d.GetName == name)

/-- An in-memory API server that enforces name uniqueness per namespace: a
create under a name already present fails with a conflict error and leaves
the store as it is, otherwise the object is stored under the namespace of the
call and returned. -/
def fakeClient : Interface FakeStore where
  deploymentsCreate ns obj st :=
    if st.hasDeployment ns obj.GetName then
      (.error ("deployments.apps \"" ++ obj.GetName ++ "\" already exists"), st)
    else
      let d : Deployment := { obj with objectMeta := { obj.objectMeta with «namespace» := ns } }
      (.ok d, { st with deployments := st.deployments ++ [d] })
  deploymentsGet ns name st :=
    match st.deployments.find? (fun d => d.GetNamespace == ns && d.GetName == name) with
    | some d => (.ok d, st)
    | none => (.error ("deployments.apps \"" ++ name ++ "\" not found"), st)
  deploymentsDelete ns name st :=
    if st.hasDeployment ns name then
      (none, { st with deployments :=
        st.deployments.filter (fun d => !(d.GetNamespace == ns && d.GetName == name)) })
    else (some ("deployments.apps \"" ++ name ++ "\" not found"), st)
  servicesCreate ns obj st :=
    if st.hasService ns obj.GetName then
      (.error ("services \"" ++ obj.GetName ++ "\" already exists"), st)
    else
      let d : Service := { obj with objectMeta := { obj.objectMeta with «namespace» := ns } }
      (.ok d, { st with services := st.services ++ [d] })
  servicesDelete ns name st :=
    if st.hasService ns name then
      (none, { st with services :=
        st.services.filter (fun d => !(d.GetNamespace == ns && d.GetName == name)) })
    else (some ("services \"" ++ name ++ "\" not found"), st)

/-- An environment in which the in-cluster configuration is available. -/
def inClusterEnv : Env where
  outsideCluster := false
  userHomeDir := .error "$HOME is not defined"
  pathJoin a b := a ++ "/" ++ b
  buildConfigFromFlags _ _ := .error "no kubeconfig"
  inClusterConfig := .ok ⟨"https://10.96.0.1:443"⟩
  newForConfig _ := .ok ()

/-- An API server that answers every call without an error and returns, from a
create, the submitted object with its namespace field set to `target`. -/
def relocatingClient (target : String) : Interface Unit where
  deploymentsCreate _ obj st :=
    (.ok { obj with objectMeta := { obj.objectMeta with «namespace» := target } }, st)
  deploymentsGet ns name st := (.ok { objectMeta := { name := name, «namespace» := ns } }, st)
  deploymentsDelete _ _ st := (none, st)
  servicesCreate _ obj st :=
    (.ok { obj with objectMeta := { obj.objectMeta with «namespace» := target } }, st)
  servicesDelete _ _ st := (none, st)

/-- The errors a scripted API server answers with, per method; `none` is success. -/
structure Script where
  createDeployment : Option String := none
  createService : Option String := none
  getDeployment : Option String := none
  deleteDeployment : Option String := none
  deleteService : Option String := none

/-- A stateless API server that answers each method as the script says; a
successful create returns the submitted object and a successful get returns a
descriptor with the requested namespace and name. -/
def scriptedClient (sc : Script) : Interface Unit where
  deploymentsCreate _ obj st :=
    match sc.createDeployment with
    | some err => (.error err, st)
    | none => (.ok obj, st)
  deploymentsGet ns name st :=
    match sc.getDeployment with
    | some err => (.error err, st)
    | none => (.ok { objectMeta := { name := name, «namespace» := ns } }, st)
  deploymentsDelete _ _ st := (sc.deleteDeployment, st)
  servicesCreate _ obj st :=
    match sc.createService with
    | some err => (.error err, st)
    | none => (.ok obj, st)
  servicesDelete _ _ st := (sc.deleteService, st)

/-- A run in which both creates complete, the observer fetches once, the signal
arrives after `signal.Notify`, and `main` runs to its end. -/
def shutdownSchedule : List Event :=
  [.main, .main, .main, .main, .observer, .observer, .main, .signal, .main, .observer,
    .main, .main]

/-- A run in which the signal is received and the workload delete is acknowledged,
and the observer then polls before `main` reaches the service delete. -/
def raceSchedule : List Event :=
  [.main, .main, .main, .main, .main, .signal, .main, .main, .observer, .main, .main]

/-- A run through both creates and the `go` statement, then one `Get` of the observer. -/
def firstPollSchedule : List Event :=
  [.main, .main, .main, .main, .observer]

/-- A run in which the observer fetches twice and the second get fails. -/
def pollSchedule : List Event :=
  [.main, .main, .main, .main, .observer, .observer, .main, .observer]

/-- An API server whose state counts the gets still to be answered without error. -/
def getFailsLaterClient : Interface Nat where
  deploymentsCreate _ obj st := (.ok obj, st)
  deploymentsGet ns name st :=
    match st with
    | 0 => (.error "connection refused", 0)
    | n + 1 => (.ok { objectMeta := { name := name, «namespace» := ns } }, n)
  deploymentsDelete _ _ st := (none, st)
  servicesCreate _ obj st := (.ok obj, st)
  servicesDelete _ _ st := (none, st)

/-- A create method enforces name uniqueness per namespace, `has srv ns name`
telling whether the server holds an object under `ns`/`name`: a create under a
name that is present fails and leaves the server as it is; a create under a name
that is absent succeeds, after which the name is present. -/
def EnforcesUniqueness {α : Type} (create : String → α → σ → Except String α × σ)
    (nameOf : α → String) (has : σ → String → String → Bool) : Prop :=
  ∀ ns obj srv,
    (has srv ns (nameOf obj) = true → ∃ msg, create ns obj srv = (.error msg, srv)) ∧
    (has srv ns (nameOf obj) = false →
      ∃ d srv2, create ns obj srv = (.ok d, srv2) ∧ has srv2 ns (nameOf obj) = true)

/-! ## The shape of the recorded call sequence -/

/-- The record of a successful workload create that returned `dm`. -/
def createdDeploymentRecord (dm : Deployment) : CallRecord :=
  ⟨.createDeployment «namespace» deploymentObject, .deployment dm⟩

/-- The record of a successful service create that returned `sm`. -/
def createdServiceRecord (sm : Service) : CallRecord :=
  ⟨.createService «namespace» serviceObject, .service sm⟩

/-- The record of an acknowledged workload delete issued by `deleteDeployment dm`. -/
def deletedDeploymentRecord (dm : Deployment) : CallRecord :=
  ⟨.deleteDeployment dm.GetNamespace dm.GetName, .ack⟩

/-- The record of an acknowledged service delete issued by `deleteService sm`. -/
def deletedServiceRecord (sm : Service) : CallRecord :=
  ⟨.deleteService sm.GetNamespace sm.GetName, .ack⟩

def ApiCall.isCreateDeployment : ApiCall → Bool
  | .createDeployment _ _ => true
  | _ => false

def ApiCall.isCreateService : ApiCall → Bool
  | .createService _ _ => true
  | _ => false

/-- The record was made by the main goroutine (it is not a get). -/
def CallRecord.isMain (r : CallRecord) : Bool := !r.call.isGet

/-- The calls the main goroutine has completed when it stands at a location. -/
def Pc.completed : Pc → List CallRecord
  | .connect => []
  | .createDeployment => []
  | .createService dm => [createdDeploymentRecord dm]
  | .spawn dm sm => [createdDeploymentRecord dm, createdServiceRecord sm]
  | .notify dm sm => [createdDeploymentRecord dm, createdServiceRecord sm]
  | .wait dm sm => [createdDeploymentRecord dm, createdServiceRecord sm]
  | .deleteDeployment dm sm => [createdDeploymentRecord dm, createdServiceRecord sm]
  | .deleteService dm sm =>
    [createdDeploymentRecord dm, createdServiceRecord sm, deletedDeploymentRecord dm]
  | .returned dm sm =>
    [createdDeploymentRecord dm, createdServiceRecord sm, deletedDeploymentRecord dm,
      deletedServiceRecord sm]

/-- The call the main goroutine issues from a location, if any. -/
def Pc.pending : Pc → Option ApiCall
  | .createDeployment => some (.createDeployment «namespace» deploymentObject)
  | .createService _ => some (.createService «namespace» serviceObject)
  | .deleteDeployment dm _ => some (.deleteDeployment dm.GetNamespace dm.GetName)
  | .deleteService _ sm => some (.deleteService sm.GetNamespace sm.GetName)
  | _ => none

/-- The descriptor the observer was started with, at the locations after the `go` statement. -/
def Pc.started : Pc → Option Deployment
  | .notify dm _ => some dm
  | .wait dm _ => some dm
  | .deleteDeployment dm _ => some dm
  | .deleteService dm _ => some dm
  | .returned dm _ => some dm
  | _ => none

/-- The locations after `signal.Notify`. -/
def Pc.notified : Pc → Bool
  | .wait _ _ => true
  | .deleteDeployment _ _ => true
  | .deleteService _ _ => true
  | .returned _ _ => true
  | _ => false

/-- The locations after the receive from `stopChan`. -/
def Pc.afterSignal : Pc → Bool
  | .deleteDeployment _ _ => true
  | .deleteService _ _ => true
  | .returned _ _ => true
  | _ => false

def Pc.isReturned : Pc → Bool
  | .returned _ _ => true
  | _ => false

/-- The descriptor captured by a started observer. -/
def Observer.captured : Observer → Option Deployment
  | .notStarted => none
  | .get dm => some dm
  | .report dm _ => some dm

/-- The name fetched by a `Get` that has returned but is not reported yet. -/
def Observer.unreported : Observer → List String
  | .report _ read => [read.GetName]
  | _ => []

/-- The name a `Read Deployment` line reports. -/
def Output.readName : Output → Option String
  | .readDeployment _ name => some name
  | _ => none

/-- The name of the descriptor a successful get fetched. -/
def CallRecord.fetchedName (r : CallRecord) : Option String :=
  match r.call, r.result with
  | .getDeployment _ _, .deployment d => some d.GetName
  | _, _ => none

/-- How the recorded calls relate to the location of the main goroutine: while
no call has failed, all records are successes and the non-get records are
exactly the calls `main` has completed; after a panic either no call was made
(the clientset could not be built) or the failed call is the last record. -/
def Trace (s : State σ) : Prop :=
  match s.status with
  | .panicked msg =>
    (s.pc = .connect ∧ s.world.calls = []) ∨
    ∃ before call, s.world.calls = before ++ [⟨call, .error msg⟩] ∧
      (∀ r ∈ before, r.ok = true) ∧
      before.filter CallRecord.isMain = s.pc.completed ∧
      (call.isGet = true ∨ s.pc.pending = some call)
  | _ =>
    (∀ r ∈ s.world.calls, r.ok = true) ∧
    s.world.calls.filter CallRecord.isMain = s.pc.completed

/-- The invariant of the transition system. -/
structure Inv (s : State σ) : Prop where
  observer_eq : s.observer.captured = s.pc.started
  gets : ∀ r ∈ s.world.calls, r.call.isGet = true →
    ∃ dm, s.pc.started = some dm ∧ r.call = .getDeployment «namespace» dm.GetName
  exited_iff : s.status = .exited ↔ s.pc.isReturned = true
  notified_eq : s.notified = s.pc.notified
  killed : s.status = .killed → s.notified = false
  signalled_eq : s.signalled = s.pc.afterSignal
  trace : Trace s
  reports : s.world.out.filterMap Output.readName ++ s.observer.unreported =
    s.world.calls.filterMap CallRecord.fetchedName

/-! ## What one call of each helper does -/

theorem createDeployment_cases (client : Interface σ) (w : World σ) :
    (∃ dm srv, createDeployment client w =
      (.ok dm, { server := srv,
                 calls := w.calls ++ [createdDeploymentRecord dm],
                 out := w.out ++ [.createdDeployment dm.GetNamespace dm.GetName] })) ∨
    (∃ msg srv, createDeployment client w =
      (.panic msg, { server := srv,
                     calls := w.calls ++
                       [⟨.createDeployment «namespace» deploymentObject, .error msg⟩],
                     out := w.out })) := by
  unfold createDeployment World.deploymentsCreate
  rcases h : client.deploymentsCreate «namespace» deploymentObject w.server with ⟨res, srv⟩
  cases res with
  | ok dm => left; exact ⟨dm, srv, by simp [h, World.print, createdDeploymentRecord]⟩
  | error msg => right; exact ⟨msg, srv, by simp [h]⟩

theorem createService_cases (client : Interface σ) (w : World σ) :
    (∃ sm srv, createService client w =
      (.ok sm, { server := srv,
                 calls := w.calls ++ [createdServiceRecord sm],
                 out := w.out ++ [.createdService sm.GetNamespace sm.GetName] })) ∨
    (∃ msg srv, createService client w =
      (.panic msg, { server := srv,
                     calls := w.calls ++
                       [⟨.createService «namespace» serviceObject, .error msg⟩],
                     out := w.out })) := by
  unfold createService World.servicesCreate
  rcases h : client.servicesCreate «namespace» serviceObject w.server with ⟨res, srv⟩
  cases res with
  | ok sm => left; exact ⟨sm, srv, by simp [h, World.print, createdServiceRecord]⟩
  | error msg => right; exact ⟨msg, srv, by simp [h]⟩

theorem deleteDeployment_cases (client : Interface σ) (dm : Deployment) (w : World σ) :
    (∃ srv, deleteDeployment client dm w =
      (.ok (), { server := srv,
                 calls := w.calls ++ [deletedDeploymentRecord dm],
                 out := w.out ++ [.deletedDeployment dm.GetNamespace dm.GetName] })) ∨
    (∃ msg srv, deleteDeployment client dm w =
      (.panic msg, { server := srv,
                     calls := w.calls ++
                       [⟨.deleteDeployment dm.GetNamespace dm.GetName, .error msg⟩],
                     out := w.out })) := by
  unfold deleteDeployment World.deploymentsDelete
  rcases h : client.deploymentsDelete dm.GetNamespace dm.GetName w.server with ⟨res, srv⟩
  cases res with
  | none => left; exact ⟨srv, by simp [h, World.print, deletedDeploymentRecord]⟩
  | some msg => right; exact ⟨msg, srv, by simp [h]⟩

theorem deleteService_cases (client : Interface σ) (sm : Service) (w : World σ) :
    (∃ srv, deleteService client sm w =
      (.ok (), { server := srv,
                 calls := w.calls ++ [deletedServiceRecord sm],
                 out := w.out ++ [.deletedService sm.GetNamespace sm.GetName] })) ∨
    (∃ msg srv, deleteService client sm w =
      (.panic msg, { server := srv,
                     calls := w.calls ++
                       [⟨.deleteService sm.GetNamespace sm.GetName, .error msg⟩],
                     out := w.out })) := by
  unfold deleteService World.servicesDelete
  rcases h : client.servicesDelete sm.GetNamespace sm.GetName w.server with ⟨res, srv⟩
  cases res with
  | none => left; exact ⟨srv, by simp [h, World.print, deletedServiceRecord]⟩
  | some msg => right; exact ⟨msg, srv, by simp [h]⟩

theorem deploymentsGet_cases (client : Interface σ) (ns name : String) (w : World σ) :
    (∃ read srv, w.deploymentsGet client ns name =
      (.ok read, { server := srv,
                   calls := w.calls ++ [⟨.getDeployment ns name, .deployment read⟩],
                   out := w.out })) ∨
    (∃ msg srv, w.deploymentsGet client ns name =
      (.error msg, { server := srv,
                     calls := w.calls ++ [⟨.getDeployment ns name, .error msg⟩],
                     out := w.out })) := by
  unfold World.deploymentsGet
  rcases h : client.deploymentsGet ns name w.server with ⟨res, srv⟩
  cases res with
  | ok read => left; exact ⟨read, srv, by simp [h]⟩
  | error msg => right; exact ⟨msg, srv, by simp [h]⟩

/-! ## The invariant holds in every reachable state -/

theorem Inv_init (srv : σ) : Inv (init srv) := by
  constructor <;> simp [init, Trace, Observer.captured, Pc.started, Pc.isReturned, Pc.notified,
    Pc.afterSignal, Pc.completed, Observer.unreported]

theorem Inv_stepSignal (s : State σ) (hrun : s.status = .running) (h : Inv s) :
    Inv (stepSignal s) := by
  unfold stepSignal
  obtain ⟨h1, h2, h3, h4, h5, h6, h7, h8⟩ := h
  by_cases hn : s.notified = true
  · simp only [hn, if_true]
    constructor <;> simp_all [Trace]
  · simp only [hn]
    constructor <;> simp_all [Trace]

theorem Trace.of_ok {s : State σ} (hst : ∀ msg, s.status ≠ .panicked msg)
    (hok : ∀ r ∈ s.world.calls, r.ok = true)
    (hmain : s.world.calls.filter CallRecord.isMain = s.pc.completed) : Trace s := by
  unfold Trace
  cases hs : s.status with
  | panicked msg => exact absurd hs (hst msg)
  | running => exact ⟨hok, hmain⟩
  | exited => exact ⟨hok, hmain⟩
  | killed => exact ⟨hok, hmain⟩

theorem Trace.of_failed {s : State σ} {msg : String} (hst : s.status = .panicked msg)
    (before : List CallRecord) (call : ApiCall)
    (hcalls : s.world.calls = before ++ [⟨call, .error msg⟩])
    (hok : ∀ r ∈ before, r.ok = true)
    (hmain : before.filter CallRecord.isMain = s.pc.completed)
    (hcall : call.isGet = true ∨ s.pc.pending = some call) : Trace s := by
  unfold Trace
  rw [hst]
  exact Or.inr ⟨before, call, hcalls, hok, hmain, hcall⟩

theorem Trace.running {s : State σ} (hst : s.status = .running) (h : Trace s) :
    (∀ r ∈ s.world.calls, r.ok = true) ∧
      s.world.calls.filter CallRecord.isMain = s.pc.completed := by
  unfold Trace at h
  rw [hst] at h
  exact h

theorem forall_mem_snoc {P : CallRecord → Prop} {l : List CallRecord} {x : CallRecord}
    (hl : ∀ r ∈ l, P r) (hx : P x) : ∀ r ∈ l ++ [x], P r := by
  intro r hr
  rcases List.mem_append.1 hr with hr | hr
  · exact hl r hr
  · rw [List.mem_singleton.1 hr]; exact hx

theorem filter_snoc_main {l : List CallRecord} {x : CallRecord} (hx : x.isMain = true) :
    (l ++ [x]).filter CallRecord.isMain = l.filter CallRecord.isMain ++ [x] := by
  simp [List.filter_append, hx]

theorem filter_snoc_get {l : List CallRecord} {x : CallRecord} (hx : x.isMain = false) :
    (l ++ [x]).filter CallRecord.isMain = l.filter CallRecord.isMain := by
  simp [List.filter_append, hx]

theorem Inv_stepObserver (client : Interface σ) (s : State σ) (hrun : s.status = .running)
    (h : Inv s) : Inv (stepObserver client s) := by
  unfold stepObserver
  cases hobs : s.observer with
  | notStarted => simpa using h
  | get dm =>
    obtain ⟨h1, h2, h3, h4, h5, h6, h7, h8⟩ := h
    obtain ⟨hok, hmain⟩ := h7.running hrun
    have hdm : s.pc.started = some dm := by rw [← h1, hobs]; rfl
    simp only
    rcases deploymentsGet_cases client «namespace» dm.GetName s.world with
      ⟨read, srv, hg⟩ | ⟨msg, srv, hg⟩
    · rw [hg]
      refine ⟨?_, ?g, ?_, ?_, ?_, ?_, ?t, ?_⟩
      case g => exact forall_mem_snoc h2 (fun _ => ⟨dm, hdm, rfl⟩)
      case t =>
        refine Trace.of_ok (by simp [hrun]) (forall_mem_snoc hok rfl) ?_
        exact (filter_snoc_get (l := s.world.calls)
          (x := ⟨.getDeployment «namespace» dm.GetName, .deployment read⟩) rfl).trans hmain
      all_goals
        simp_all [Observer.captured, Observer.unreported, CallRecord.fetchedName,
          List.filterMap_append]
    · rw [hg]
      refine ⟨?_, ?g, ?_, ?_, ?_, ?_, ?t, ?_⟩
      case g => exact forall_mem_snoc h2 (fun _ => ⟨dm, hdm, rfl⟩)
      case t => exact Trace.of_failed rfl _ _ rfl hok hmain (Or.inl rfl)
      all_goals
        simp_all [Observer.captured, Observer.unreported, CallRecord.fetchedName,
          List.filterMap_append]
  | report dm read =>
    obtain ⟨h1, h2, h3, h4, h5, h6, h7, h8⟩ := h
    obtain ⟨hok, hmain⟩ := h7.running hrun
    simp only
    refine ⟨?_, ?g, ?_, ?_, ?_, ?_, ?t, ?_⟩
    case g => exact h2
    case t => exact Trace.of_ok (by simp [hrun]) hok hmain
    all_goals
      simp_all [Observer.captured, Observer.unreported, World.print,
        List.filterMap_append, Output.readName]

theorem filter_isMain_eq_self {l : List CallRecord}
    (h : ∀ r ∈ l, r.call.isGet = true → False) : l.filter CallRecord.isMain = l := by
  rw [List.filter_eq_self]
  intro r hr
  cases hg : r.call.isGet with
  | true => exact absurd hg (fun hg => h r hr hg)
  | false => simp [CallRecord.isMain, hg]

theorem Inv_stepMain (client : Interface σ) (env : Env) (s : State σ)
    (hrun : s.status = .running) (h : Inv s) : Inv (stepMain client env s) := by
  unfold stepMain
  obtain ⟨h1, h2, h3, h4, h5, h6, h7, h8⟩ := h
  obtain ⟨hok, hmain⟩ := h7.running hrun
  cases hpc : s.pc with
  | connect =>
    simp only [hpc] at h1 h2 h3 h4 h6 hmain
    simp only
    cases connect env with
    | panic msg =>
      dsimp only
      refine ⟨?_, ?g, ?_, ?_, ?_, ?_, ?t, ?_⟩
      case g => exact h2
      case t =>
        unfold Trace
        refine Or.inl ⟨rfl, ?_⟩
        have := filter_isMain_eq_self (l := s.world.calls) (fun r hr hg => by
          obtain ⟨d, hd, _⟩ := h2 r hr hg
          simp [Pc.started] at hd)
        simpa [this, Pc.completed] using hmain
      all_goals simp_all [Pc.started, Pc.isReturned, Pc.notified, Pc.afterSignal]
    | ok _ =>
      dsimp only
      refine ⟨?_, ?g, ?_, ?_, ?_, ?_, ?t, ?_⟩
      case g => exact h2
      case t => exact Trace.of_ok (by simp [hrun]) hok hmain
      all_goals simp_all [Pc.started, Pc.isReturned, Pc.notified, Pc.afterSignal]
  | createDeployment =>
    simp only [hpc] at h1 h2 h3 h4 h6 hmain
    simp only
    rcases createDeployment_cases client s.world with ⟨dm, srv, hc⟩ | ⟨msg, srv, hc⟩
    · rw [hc]
      dsimp only
      refine ⟨?_, ?g, ?_, ?_, ?_, ?_, ?t, ?_⟩
      case g =>
        intro r hr hget
        rcases List.mem_append.1 hr with hr | hr
        · obtain ⟨d, hd, _⟩ := h2 r hr hget
          simp [Pc.started] at hd
        · rw [List.mem_singleton.1 hr] at hget
          simp [createdDeploymentRecord, ApiCall.isGet] at hget
      case t =>
        refine Trace.of_ok (by simp [hrun]) (forall_mem_snoc hok rfl) ?_
        exact (filter_snoc_main (x := createdDeploymentRecord dm) rfl).trans (by rw [hmain]; rfl)
      all_goals
        simp_all [Pc.started, Pc.isReturned, Pc.notified, Pc.afterSignal,
          createdDeploymentRecord, CallRecord.fetchedName, Output.readName, List.filterMap_append]
    · rw [hc]
      dsimp only
      refine ⟨?_, ?g, ?_, ?_, ?_, ?_, ?t, ?_⟩
      case g =>
        intro r hr hget
        rcases List.mem_append.1 hr with hr | hr
        · obtain ⟨d, hd, _⟩ := h2 r hr hget
          simp [Pc.started] at hd
        · rw [List.mem_singleton.1 hr] at hget
          simp [ApiCall.isGet] at hget
      case t => exact Trace.of_failed rfl _ _ rfl hok hmain (Or.inr rfl)
      all_goals
        simp_all [Pc.started, Pc.isReturned, Pc.notified, Pc.afterSignal,
          CallRecord.fetchedName, Output.readName, List.filterMap_append]
  | createService dm =>
    simp only [hpc] at h1 h2 h3 h4 h6 hmain
    simp only
    rcases createService_cases client s.world with ⟨sm, srv, hc⟩ | ⟨msg, srv, hc⟩
    · rw [hc]
      dsimp only
      refine ⟨?_, ?g, ?_, ?_, ?_, ?_, ?t, ?_⟩
      case g =>
        intro r hr hget
        rcases List.mem_append.1 hr with hr | hr
        · obtain ⟨d, hd, _⟩ := h2 r hr hget
          simp [Pc.started] at hd
        · rw [List.mem_singleton.1 hr] at hget
          simp [createdServiceRecord, ApiCall.isGet] at hget
      case t =>
        refine Trace.of_ok (by simp [hrun]) (forall_mem_snoc hok rfl) ?_
        exact (filter_snoc_main (x := createdServiceRecord sm) rfl).trans (by rw [hmain]; rfl)
      all_goals
        simp_all [Pc.started, Pc.isReturned, Pc.notified, Pc.afterSignal,
          createdServiceRecord, CallRecord.fetchedName, Output.readName, List.filterMap_append]
    · rw [hc]
      dsimp only
      refine ⟨?_, ?g, ?_, ?_, ?_, ?_, ?t, ?_⟩
      case g =>
        intro r hr hget
        rcases List.mem_append.1 hr with hr | hr
        · obtain ⟨d, hd, _⟩ := h2 r hr hget
          simp [Pc.started] at hd
        · rw [List.mem_singleton.1 hr] at hget
          simp [ApiCall.isGet] at hget
      case t => exact Trace.of_failed rfl _ _ rfl hok hmain (Or.inr rfl)
      all_goals
        simp_all [Pc.started, Pc.isReturned, Pc.notified, Pc.afterSignal,
          CallRecord.fetchedName, Output.readName, List.filterMap_append]
  | spawn dm sm =>
    simp only [hpc] at h1 h2 h3 h4 h6 hmain
    dsimp only
    refine ⟨?_, ?g, ?_, ?_, ?_, ?_, ?t, ?_⟩
    case g =>
      intro r hr hget
      obtain ⟨d, hd, _⟩ := h2 r hr hget
      simp [Pc.started] at hd
    case t => exact Trace.of_ok (by simp [hrun]) hok hmain
    all_goals
      cases hobs : s.observer <;>
      simp_all [Pc.started, Pc.isReturned, Pc.notified, Pc.afterSignal, Observer.captured,
        Observer.unreported]
  | notify dm sm =>
    simp only [hpc] at h1 h2 h3 h4 h6 hmain
    dsimp only
    refine ⟨?_, ?g, ?_, ?_, ?_, ?_, ?t, ?_⟩
    case g => exact h2
    case t => exact Trace.of_ok (by simp [hrun]) hok hmain
    all_goals
      simp_all [Pc.started, Pc.isReturned, Pc.notified, Pc.afterSignal, World.print,
        Output.readName, List.filterMap_append]
  | wait dm sm =>
    simp only [hpc] at h1 h2 h3 h4 h6 hmain
    dsimp only
    by_cases hch : s.stopChan = true
    · simp only [hch, if_true]
      refine ⟨?_, ?g, ?_, ?_, ?_, ?_, ?t, ?_⟩
      case g => exact h2
      case t => exact Trace.of_ok (by simp [hrun]) hok hmain
      all_goals simp_all [Pc.started, Pc.isReturned, Pc.notified, Pc.afterSignal]
    · simp only [hch]
      refine ⟨?_, ?g, ?_, ?_, ?_, ?_, ?t, ?_⟩
      case g => simpa [hpc] using h2
      case t => exact Trace.of_ok (by simp [hrun]) hok (by simpa [hpc] using hmain)
      all_goals simp_all [Pc.started, Pc.isReturned, Pc.notified, Pc.afterSignal]
  | deleteDeployment dm sm =>
    simp only [hpc] at h1 h2 h3 h4 h6 hmain
    simp only
    rcases deleteDeployment_cases client dm
        (s.world.print (.deleteDeployment «namespace» dm.GetName)) with
      ⟨srv, hc⟩ | ⟨msg, srv, hc⟩
    · rw [hc]
      dsimp only [World.print]
      refine ⟨?_, ?g, ?_, ?_, ?_, ?_, ?t, ?_⟩
      case g =>
        intro r hr hget
        rcases List.mem_append.1 hr with hr | hr
        · exact h2 r hr hget
        · rw [List.mem_singleton.1 hr] at hget
          simp [deletedDeploymentRecord, ApiCall.isGet] at hget
      case t =>
        refine Trace.of_ok (by simp [hrun]) (forall_mem_snoc hok rfl) ?_
        exact (filter_snoc_main (x := deletedDeploymentRecord dm) rfl).trans (by rw [hmain]; rfl)
      all_goals
        simp_all [Pc.started, Pc.isReturned, Pc.notified, Pc.afterSignal,
          deletedDeploymentRecord, CallRecord.fetchedName, Output.readName,
          List.filterMap_append]
    · rw [hc]
      dsimp only [World.print]
      refine ⟨?_, ?g, ?_, ?_, ?_, ?_, ?t, ?_⟩
      case g =>
        intro r hr hget
        rcases List.mem_append.1 hr with hr | hr
        · exact h2 r hr hget
        · rw [List.mem_singleton.1 hr] at hget
          simp [ApiCall.isGet] at hget
      case t => exact Trace.of_failed rfl _ _ rfl hok hmain (Or.inr rfl)
      all_goals
        simp_all [Pc.started, Pc.isReturned, Pc.notified, Pc.afterSignal,
          CallRecord.fetchedName, Output.readName, List.filterMap_append]
  | deleteService dm sm =>
    simp only [hpc] at h1 h2 h3 h4 h6 hmain
    simp only
    rcases deleteService_cases client sm
        (s.world.print (.deleteService «namespace» sm.GetName)) with
      ⟨srv, hc⟩ | ⟨msg, srv, hc⟩
    · rw [hc]
      dsimp only [World.print]
      refine ⟨?_, ?g, ?_, ?_, ?_, ?_, ?t, ?_⟩
      case g =>
        intro r hr hget
        rcases List.mem_append.1 hr with hr | hr
        · exact h2 r hr hget
        · rw [List.mem_singleton.1 hr] at hget
          simp [deletedServiceRecord, ApiCall.isGet] at hget
      case t =>
        refine Trace.of_ok (by simp) (forall_mem_snoc hok rfl) ?_
        exact (filter_snoc_main (x := deletedServiceRecord sm) rfl).trans (by rw [hmain]; rfl)
      all_goals
        simp_all [Pc.started, Pc.isReturned, Pc.notified, Pc.afterSignal,
          deletedServiceRecord, CallRecord.fetchedName, Output.readName,
          List.filterMap_append]
    · rw [hc]
      dsimp only [World.print]
      refine ⟨?_, ?g, ?_, ?_, ?_, ?_, ?t, ?_⟩
      case g =>
        intro r hr hget
        rcases List.mem_append.1 hr with hr | hr
        · exact h2 r hr hget
        · rw [List.mem_singleton.1 hr] at hget
          simp [ApiCall.isGet] at hget
      case t => exact Trace.of_failed rfl _ _ rfl hok hmain (Or.inr rfl)
      all_goals
        simp_all [Pc.started, Pc.isReturned, Pc.notified, Pc.afterSignal,
          CallRecord.fetchedName, Output.readName, List.filterMap_append]
  | returned dm sm =>
    simp only [hpc] at h3
    simp [hrun] at h3
    simp [Pc.isReturned] at h3

theorem Inv_step (client : Interface σ) (env : Env) (s : State σ) (e : Event) (h : Inv s) :
    Inv (step client env s e) := by
  unfold step
  cases hst : s.status with
  | running =>
    cases e with
    | main => exact Inv_stepMain client env s hst h
    | observer => exact Inv_stepObserver client s hst h
    | signal => exact Inv_stepSignal s hst h
  | exited => exact h
  | panicked msg => exact h
  | killed => exact h

theorem Inv_foldl (client : Interface σ) (env : Env) (es : List Event) :
    ∀ s : State σ, Inv s → Inv (es.foldl (step client env) s) := by
  induction es with
  | nil => intro s h; exact h
  | cons e es ih => intro s h; exact ih _ (Inv_step client env s e h)

theorem Inv_run (client : Interface σ) (env : Env) (srv : σ) (es : List Event) :
    Inv (run client env srv es) :=
  Inv_foldl client env es _ (Inv_init srv)

/-- A process that has ended stays as it is. -/
theorem step_of_not_running (client : Interface σ) (env : Env) (s : State σ) (e : Event)
    (h : s.status ≠ .running) : step client env s e = s := by
  unfold step
  cases hst : s.status with
  | running => exact absurd hst h
  | exited => rfl
  | panicked msg => rfl
  | killed => rfl

theorem run_append (client : Interface σ) (env : Env) (srv : σ) (es es2 : List Event) :
    run client env srv (es ++ es2) = es2.foldl (step client env) (run client env srv es) := by
  simp [run, List.foldl_append]

theorem foldl_of_not_running (client : Interface σ) (env : Env) (es : List Event) :
    ∀ s : State σ, s.status ≠ .running → es.foldl (step client env) s = s := by
  induction es with
  | nil => intro s _; rfl
  | cons e es ih =>
    intro s h
    rw [List.foldl_cons, step_of_not_running client env s e h]
    exact ih s h

/-! ## Consequences of the invariant -/

theorem Pc.pending_isGet {pc : Pc} {call : ApiCall} (h : pc.pending = some call) :
    call.isGet = false := by
  cases pc <;> simp [Pc.pending] at h <;> subst h <;> rfl

theorem ok_false_of_error {r : CallRecord} {msg : String} (h : r.result = .error msg) :
    r.ok = false := by
  simp [CallRecord.ok, h, ApiResult.isError]

/-- The non-get records are the calls `main` has completed, followed by the call
that failed if `main` panicked on a call. -/
theorem Inv.main_calls {s : State σ} (h : Inv s) :
    s.world.calls.filter CallRecord.isMain = s.pc.completed ∨
    ∃ call msg, s.status = .panicked msg ∧ s.pc.pending = some call ∧
      s.world.calls.filter CallRecord.isMain = s.pc.completed ++ [⟨call, .error msg⟩] := by
  have ht := h.trace
  unfold Trace at ht
  cases hst : s.status with
  | running => rw [hst] at ht; exact Or.inl ht.2
  | exited => rw [hst] at ht; exact Or.inl ht.2
  | killed => rw [hst] at ht; exact Or.inl ht.2
  | panicked msg =>
    rw [hst] at ht
    rcases ht with ⟨hpc, hc⟩ | ⟨before, call, hc, _, hmain, hcall⟩
    · left; rw [hc, hpc]; rfl
    · rcases hcall with hget | hpend
      · left
        rw [hc, filter_snoc_get (by simp [CallRecord.isMain, hget])]
        exact hmain
      · right
        refine ⟨call, msg, rfl, hpend, ?_⟩
        rw [hc, filter_snoc_main (by simp [CallRecord.isMain, Pc.pending_isGet hpend]), hmain]

/-- A call answered with an error is the last record, every record before it is a
success, and the process has panicked with that error. -/
theorem Inv.failed {s : State σ} (h : Inv s) {r : CallRecord} {msg : String}
    (hr : r ∈ s.world.calls) (herr : r.result = .error msg) :
    s.status = .panicked msg ∧
    ∃ before, s.world.calls = before ++ [r] ∧ (∀ x ∈ before, x.ok = true) ∧
      before.filter CallRecord.isMain = s.pc.completed ∧
      (r.call.isGet = true ∨ s.pc.pending = some r.call) := by
  have ht := h.trace
  unfold Trace at ht
  have hbad := ok_false_of_error herr
  cases hst : s.status with
  | running => rw [hst] at ht; rw [ht.1 r hr] at hbad; cases hbad
  | exited => rw [hst] at ht; rw [ht.1 r hr] at hbad; cases hbad
  | killed => rw [hst] at ht; rw [ht.1 r hr] at hbad; cases hbad
  | panicked msg2 =>
    rw [hst] at ht
    rcases ht with ⟨_, hc⟩ | ⟨before, call, hc, hok, hmain, hcall⟩
    · rw [hc] at hr; cases hr
    · rw [hc] at hr
      rcases List.mem_append.1 hr with hr | hr
      · rw [hok r hr] at hbad; cases hbad
      · have hrx := List.mem_singleton.1 hr
        subst hrx
        simp only [ApiResult.error.injEq] at herr
        subst herr
        exact ⟨rfl, before, hc, hok, hmain, hcall⟩

/-- Filtering by a property only non-get records have may go through the non-get records. -/
theorem filter_via_main (p : CallRecord → Bool) (hp : ∀ r, p r = true → r.isMain = true)
    (l : List CallRecord) : l.filter p = (l.filter CallRecord.isMain).filter p := by
  rw [List.filter_filter]
  congr 1
  funext r
  cases hpr : p r with
  | false => simp
  | true => simp [hp r hpr]

theorem isMain_of_isCreate (r : CallRecord) (h : r.call.isCreate = true) : r.isMain = true := by
  cases r with
  | mk call result => cases call <;> simp_all [CallRecord.isMain, ApiCall.isGet, ApiCall.isCreate]

theorem isMain_of_isDelete (r : CallRecord) (h : r.call.isDelete = true) : r.isMain = true := by
  cases r with
  | mk call result => cases call <;> simp_all [CallRecord.isMain, ApiCall.isGet, ApiCall.isDelete]

/-! ## The objects the two create helpers submit -/

theorem createDeployment_submits (client : Interface σ) (w : World σ) :
    (createDeployment client w).2.calls.map CallRecord.call =
      w.calls.map CallRecord.call ++ [.createDeployment «namespace» deploymentObject] := by
  rcases createDeployment_cases client w with ⟨dm, srv, h⟩ | ⟨msg, srv, h⟩ <;>
    simp [h, createdDeploymentRecord]

theorem createService_submits (client : Interface σ) (w : World σ) :
    (createService client w).2.calls.map CallRecord.call =
      w.calls.map CallRecord.call ++ [.createService «namespace» serviceObject] := by
  rcases createService_cases client w with ⟨sm, srv, h⟩ | ⟨msg, srv, h⟩ <;>
    simp [h, createdServiceRecord]

/-- C4: the single call `createDeployment` records submits a workload object and
the single call `createService` records submits a service object such that the one
pair ("fy20047-k8s", "practice2") is the whole label map of the workload, of its pod
template and of the service, and the whole selector of the service; so the service
selector equals the pod-template labels and is a subset of them. -/
theorem shared_label_is_entire_label_map (client : Interface σ) (w : World σ) :
    ∃ dobj sobj,
      (createDeployment client w).2.calls.map CallRecord.call =
        w.calls.map CallRecord.call ++ [.createDeployment «namespace» dobj] ∧
      (createService client w).2.calls.map CallRecord.call =
        w.calls.map CallRecord.call ++ [.createService «namespace» sobj] ∧
      dobj.objectMeta.labels = [("fy20047-k8s", "practice2")] ∧
      dobj.spec.template.objectMeta.labels = [("fy20047-k8s", "practice2")] ∧
      sobj.objectMeta.labels = [("fy20047-k8s", "practice2")] ∧
      sobj.spec.selector = [("fy20047-k8s", "practice2")] ∧
      sobj.spec.selector = dobj.spec.template.objectMeta.labels ∧
      labelsSubset sobj.spec.selector dobj.spec.template.objectMeta.labels = true :=
  ⟨deploymentObject, serviceObject, createDeployment_submits client w,
    createService_submits client w, rfl, rfl, rfl, rfl, rfl, by decide⟩

/-- C5: the workload object `createDeployment` submits is named "hello-app1", asks
for 1 replica and has exactly one container, with image "nginx:1.14.2" and exactly one
container port, 80; the service object `createService` submits is named
"hello-service", has type NodePort and exactly one port entry, with port 80, an
integer-typed target port 80 equal to the container port, and node port 30080. -/
theorem submitted_objects_have_fixed_fields (client : Interface σ) (w : World σ) :
    ∃ dobj sobj container cport sport,
      (createDeployment client w).2.calls.map CallRecord.call =
        w.calls.map CallRecord.call ++ [.createDeployment «namespace» dobj] ∧
      (createService client w).2.calls.map CallRecord.call =
        w.calls.map CallRecord.call ++ [.createService «namespace» sobj] ∧
      dobj.objectMeta.name = "hello-app1" ∧
      dobj.spec.replicas = some 1 ∧
      dobj.spec.template.spec.containers = [container] ∧
      container.image = "nginx:1.14.2" ∧
      container.ports = [cport] ∧
      cport.containerPort = 80 ∧
      sobj.objectMeta.name = "hello-service" ∧
      sobj.spec.type = .NodePort ∧
      sobj.spec.ports = [sport] ∧
      sport.port = 80 ∧
      sport.targetPort.type = .Int ∧
      sport.targetPort.intVal = 80 ∧
      sport.targetPort.intVal = cport.containerPort ∧
      sport.nodePort = 30080 :=
  ⟨deploymentObject, serviceObject, _, _, _, createDeployment_submits client w,
    createService_submits client w, rfl, rfl, rfl, rfl, rfl, rfl, rfl, rfl, rfl, rfl, rfl, rfl,
    rfl, rfl⟩

/-- C10: in the workload object `createDeployment` submits, the workload's own pod
selector (`Spec.Selector.MatchLabels`) is present and equal to the label map of the
pod template. -/
theorem workload_selector_matches_template (client : Interface σ) (w : World σ) :
    ∃ dobj selector,
      (createDeployment client w).2.calls.map CallRecord.call =
        w.calls.map CallRecord.call ++ [.createDeployment «namespace» dobj] ∧
      dobj.spec.selector = some selector ∧
      selector.matchLabels = dobj.spec.template.objectMeta.labels ∧
      labelsSubset selector.matchLabels dobj.spec.template.objectMeta.labels = true :=
  ⟨deploymentObject, _, createDeployment_submits client w, rfl, rfl, by decide⟩

/-! ## Namespace of the delete calls -/

/-- C6 (evaluation at the failing input): against a server that returns the created
descriptors with namespace "kube-system", the two creates and the get are scoped to
"default" but both deletes are scoped to "kube-system". -/
theorem deletes_scoped_to_returned_namespace :
    (run (relocatingClient "kube-system") inClusterEnv () shutdownSchedule).world.calls.map
        (fun r => (r.call.isDelete, r.call.ns)) =
      [(false, "default"), (false, "default"), (false, "default"), (false, "default"),
        (true, "kube-system"), (true, "kube-system")] := by
  decide

/-! ## Creating twice against a server that enforces unique names -/

theorem fakeClient_deployments_unique :
    EnforcesUniqueness fakeClient.deploymentsCreate Deployment.GetName
      FakeStore.hasDeployment := by
  intro ns obj st
  constructor
  · intro h
    exact ⟨"deployments.apps \"" ++ obj.GetName ++ "\" already exists", by simp [fakeClient, h]⟩
  · intro h
    refine ⟨_, _, by simp [fakeClient, h]; exact ⟨rfl, rfl⟩, ?_⟩
    simp [FakeStore.hasDeployment, Deployment.GetName, Deployment.GetNamespace]

theorem fakeClient_services_unique :
    EnforcesUniqueness fakeClient.servicesCreate Service.GetName FakeStore.hasService := by
  intro ns obj st
  constructor
  · intro h
    exact ⟨"services \"" ++ obj.GetName ++ "\" already exists", by simp [fakeClient, h]⟩
  · intro h
    refine ⟨_, _, by simp [fakeClient, h]; exact ⟨rfl, rfl⟩, ?_⟩
    simp [FakeStore.hasService, Service.GetName, Service.GetNamespace]

/-- C8: against a server whose creates enforce name uniqueness per namespace and
that does not yet hold the two names, `createDeployment` returns a descriptor the
first time and panics the second time with the error the server gives for the
conflicting create, the second call leaving the server state as the first call left
it; and the same for `createService`. -/
theorem second_create_conflicts (client : Interface σ)
    (hasDeployment hasService : σ → String → String → Bool)
    (hD : EnforcesUniqueness client.deploymentsCreate Deployment.GetName hasDeployment)
    (hS : EnforcesUniqueness client.servicesCreate Service.GetName hasService)
    (w : World σ)
    (hfreshD : hasDeployment w.server «namespace» "hello-app1" = false)
    (hfreshS : hasService w.server «namespace» "hello-service" = false) :
    (∃ dm w1 msg w2,
      createDeployment client w = (.ok dm, w1) ∧
      createDeployment client w1 = (.panic msg, w2) ∧
      client.deploymentsCreate «namespace» deploymentObject w1.server =
        (.error msg, w1.server) ∧
      w2.server = w1.server) ∧
    (∃ sm w1 msg w2,
      createService client w = (.ok sm, w1) ∧
      createService client w1 = (.panic msg, w2) ∧
      client.servicesCreate «namespace» serviceObject w1.server = (.error msg, w1.server) ∧
      w2.server = w1.server) := by
  constructor
  · obtain ⟨d, srv1, hc1, hhas⟩ := (hD «namespace» deploymentObject w.server).2 hfreshD
    obtain ⟨msg, hc2⟩ := (hD «namespace» deploymentObject srv1).1 hhas
    have h1 : createDeployment client w =
        (.ok d, { server := srv1, calls := w.calls ++ [createdDeploymentRecord d],
                  out := w.out ++ [.createdDeployment d.GetNamespace d.GetName] }) := by
      simp [createDeployment, World.deploymentsCreate, World.print, hc1,
        createdDeploymentRecord]
    have h2 : ∀ calls out, createDeployment client { server := srv1, calls := calls, out := out } =
        (.panic msg, { server := srv1, calls := calls ++
          [⟨.createDeployment «namespace» deploymentObject, .error msg⟩], out := out }) := by
      intro calls out
      simp [createDeployment, World.deploymentsCreate, hc2]
    exact ⟨d, _, msg, _, h1, h2 _ _, hc2, rfl⟩
  · obtain ⟨d, srv1, hc1, hhas⟩ := (hS «namespace» serviceObject w.server).2 hfreshS
    obtain ⟨msg, hc2⟩ := (hS «namespace» serviceObject srv1).1 hhas
    have h1 : createService client w =
        (.ok d, { server := srv1, calls := w.calls ++ [createdServiceRecord d],
                  out := w.out ++ [.createdService d.GetNamespace d.GetName] }) := by
      simp [createService, World.servicesCreate, World.print, hc1, createdServiceRecord]
    have h2 : ∀ calls out, createService client { server := srv1, calls := calls, out := out } =
        (.panic msg, { server := srv1, calls := calls ++
          [⟨.createService «namespace» serviceObject, .error msg⟩], out := out }) := by
      intro calls out
      simp [createService, World.servicesCreate, hc2]
    exact ⟨d, _, msg, _, h1, h2 _ _, hc2, rfl⟩

/-- The in-memory server, started empty, enforces unique names: the second create of
each object conflicts. -/
theorem second_create_conflicts_witness :
    (∃ dm w1 msg w2,
      createDeployment fakeClient ({ server := {} } : World FakeStore) = (.ok dm, w1) ∧
      createDeployment fakeClient w1 = (.panic msg, w2) ∧
      fakeClient.deploymentsCreate «namespace» deploymentObject w1.server =
        (.error msg, w1.server) ∧
      w2.server = w1.server) ∧
    (∃ sm w1 msg w2,
      createService fakeClient ({ server := {} } : World FakeStore) = (.ok sm, w1) ∧
      createService fakeClient w1 = (.panic msg, w2) ∧
      fakeClient.servicesCreate «namespace» serviceObject w1.server = (.error msg, w1.server) ∧
      w2.server = w1.server) :=
  second_create_conflicts fakeClient FakeStore.hasDeployment FakeStore.hasService
    fakeClient_deployments_unique fakeClient_services_unique { server := {} }
    (by decide) (by decide)

/-! ## Shutdown -/

/-- Once the signal has been received, the next two statements of `main` end the process. -/
theorem finish_after_signal (client : Interface σ) (env : Env) (s : State σ) (h : Inv s)
    (hsig : s.signalled = true) :
    ([Event.main, Event.main].foldl (step client env) s).status ≠ .running ∧
    ([Event.main, Event.main].foldl (step client env) s).signalled = true := by
  by_cases hst : s.status = .running
  · have hpc := h.signalled_eq
    rw [hsig] at hpc
    cases hp : s.pc with
    | deleteDeployment dm sm =>
      rcases deleteDeployment_cases client dm
          (s.world.print (.deleteDeployment «namespace» dm.GetName)) with
        ⟨srv, hc⟩ | ⟨msg, srv, hc⟩
      · rcases deleteService_cases client sm
            (World.print (.deleteService «namespace» sm.GetName)
              { server := srv,
                calls := (s.world.print (.deleteDeployment «namespace» dm.GetName)).calls ++
                  [deletedDeploymentRecord dm],
                out := (s.world.print (.deleteDeployment «namespace» dm.GetName)).out ++
                  [.deletedDeployment dm.GetNamespace dm.GetName] }) with
          ⟨srv2, hc2⟩ | ⟨msg2, srv2, hc2⟩ <;>
        simp [List.foldl, step, hst, stepMain, hp, hc, hc2, hsig]
      · simp [List.foldl, step, hst, stepMain, hp, hc, hsig]
    | deleteService dm sm =>
      rcases deleteService_cases client sm
          (s.world.print (.deleteService «namespace» sm.GetName)) with
        ⟨srv, hc⟩ | ⟨msg, srv, hc⟩ <;>
      simp [List.foldl, step, hst, stepMain, hp, hc, hsig]
    | returned dm sm =>
      have := h.exited_iff.2 (by rw [hp]; rfl)
      rw [hst] at this; cases this
    | connect => rw [hp] at hpc; cases hpc
    | createDeployment => rw [hp] at hpc; cases hpc
    | createService dm => rw [hp] at hpc; cases hpc
    | spawn dm sm => rw [hp] at hpc; cases hpc
    | notify dm sm => rw [hp] at hpc; cases hpc
    | wait dm sm => rw [hp] at hpc; cases hpc
  · rw [foldl_of_not_running client env _ s hst]
    exact ⟨hst, hsig⟩

/-- Shutdown when no call fails: once the termination signal has been received, the
next two statements of `main` end the process (and the signal stays received); and in
every ended run in which the signal was received and every recorded call, the
observer's gets included, was answered without an error,
the create records are the workload create then the service create, returning `dm`
and `sm`, and the delete records are exactly two: the acknowledged workload delete
for `dm` first, the acknowledged service delete for `sm` second. -/
theorem signal_shutdown_deletes_workload_then_service
    (client : Interface σ) (env : Env) (srv : σ) (es : List Event)
    (hsig : (run client env srv es).signalled = true) :
    ((run client env srv (es ++ [.main, .main])).status ≠ .running ∧
      (run client env srv (es ++ [.main, .main])).signalled = true) ∧
    ((run client env srv es).status ≠ .running →
      (∀ r ∈ (run client env srv es).world.calls, r.ok = true) →
      (run client env srv es).status = .exited ∧
      ∃ dm sm,
        (run client env srv es).world.calls.filter (fun r => r.call.isCreate) =
          [createdDeploymentRecord dm, createdServiceRecord sm] ∧
        (run client env srv es).world.calls.filter (fun r => r.call.isDelete) =
          [deletedDeploymentRecord dm, deletedServiceRecord sm]) := by
  have hI := Inv_run client env srv es
  refine ⟨?_, ?_⟩
  · rw [run_append]
    exact finish_after_signal client env _ hI hsig
  · intro hend hok
    generalize run client env srv es = s at hI hsig hend hok
    have hpc := hI.signalled_eq
    rw [hsig] at hpc
    have ht := hI.trace
    unfold Trace at ht
    cases hst : s.status with
    | running => exact absurd hst hend
    | killed =>
      have hn := hI.killed hst
      rw [hI.notified_eq] at hn
      cases hp : s.pc <;> rw [hp] at hpc hn <;> simp [Pc.afterSignal, Pc.notified] at hpc hn
    | panicked msg =>
      rw [hst] at ht
      rcases ht with ⟨hp, _⟩ | ⟨before, call, hc, _, _, _⟩
      · rw [hp] at hpc; cases hpc
      · have := hok ⟨call, .error msg⟩ (by rw [hc]; simp)
        cases this
    | exited =>
      rw [hst] at ht
      have hret := hI.exited_iff.1 hst
      cases hp : s.pc with
      | returned dm sm =>
        refine ⟨rfl, dm, sm, ?_, ?_⟩
        · rw [filter_via_main _ isMain_of_isCreate, ht.2, hp]; rfl
        · rw [filter_via_main _ isMain_of_isDelete, ht.2, hp]; rfl
      | connect => rw [hp] at hret; cases hret
      | createDeployment => rw [hp] at hret; cases hret
      | createService dm => rw [hp] at hret; cases hret
      | spawn dm sm => rw [hp] at hret; cases hret
      | notify dm sm => rw [hp] at hret; cases hret
      | wait dm sm => rw [hp] at hret; cases hret
      | deleteDeployment dm sm => rw [hp] at hret; cases hret
      | deleteService dm sm => rw [hp] at hret; cases hret

/-- The shutdown run against the in-memory server ends with the two deletes in order. -/
theorem signal_shutdown_deletes_workload_then_service_witness :
    (run fakeClient inClusterEnv {} shutdownSchedule).signalled = true ∧
    (run fakeClient inClusterEnv {} shutdownSchedule).status ≠ .running ∧
    (∀ r ∈ (run fakeClient inClusterEnv {} shutdownSchedule).world.calls, r.ok = true) ∧
    ((run fakeClient inClusterEnv {} shutdownSchedule).status = .exited ∧
      ∃ dm sm,
        (run fakeClient inClusterEnv {} shutdownSchedule).world.calls.filter
            (fun r => r.call.isCreate) =
          [createdDeploymentRecord dm, createdServiceRecord sm] ∧
        (run fakeClient inClusterEnv {} shutdownSchedule).world.calls.filter
            (fun r => r.call.isDelete) =
          [deletedDeploymentRecord dm, deletedServiceRecord sm]) :=
  ⟨by decide, by decide, by decide,
    (signal_shutdown_deletes_workload_then_service fakeClient inClusterEnv {} shutdownSchedule
      (by decide)).2 (by decide) (by decide)⟩

/-- C1 (evaluation at the failing input): against the in-memory server, in the run
where the signal is received, the workload delete is acknowledged and the observer
polls before the service delete, every call is answered, the get is answered
"not found", the observer panics, and the process ends with the workload delete
recorded, no service delete recorded and the service still stored. -/
theorem observer_panic_skips_service_delete :
    (run fakeClient inClusterEnv {} raceSchedule).signalled = true ∧
    (run fakeClient inClusterEnv {} raceSchedule).status =
      .panicked "deployments.apps \"hello-app1\" not found" ∧
    (run fakeClient inClusterEnv {} raceSchedule).world.calls.map
        (fun r => (r.call, r.ok)) =
      [(.createDeployment "default" deploymentObject, true),
        (.createService "default" serviceObject, true),
        (.deleteDeployment "default" "hello-app1", true),
        (.getDeployment "default" "hello-app1", false)] ∧
    (run fakeClient inClusterEnv {} raceSchedule).world.calls.filter
        (fun r => r.call.isDeleteService) = [] ∧
    (run fakeClient inClusterEnv {} raceSchedule).world.server.hasService
        "default" "hello-service" = true ∧
    (∀ es2, run fakeClient inClusterEnv {} (raceSchedule ++ es2) =
      run fakeClient inClusterEnv {} raceSchedule) := by
  refine ⟨by decide, by decide, by decide, by decide, by decide, fun es2 => ?_⟩
  rw [run_append]
  exact foldl_of_not_running fakeClient inClusterEnv es2 _ (by decide)

/-- After a panic no event changes the state. -/
theorem run_frozen_of_panicked (client : Interface σ) (env : Env) (srv : σ) (es : List Event)
    {msg : String} (h : (run client env srv es).status = .panicked msg) (es2 : List Event) :
    run client env srv (es ++ es2) = run client env srv es := by
  rw [run_append]
  exact foldl_of_not_running client env es2 _ (by rw [h]; simp)

theorem Pc.eq_deleteDeployment_of_pending {pc : Pc} {ns name : String}
    (h : pc.pending = some (.deleteDeployment ns name)) : ∃ dm sm, pc = .deleteDeployment dm sm := by
  cases pc <;> simp [Pc.pending] at h
  exact ⟨_, _, rfl⟩

theorem deleteDeployment_outcome (client : Interface σ) (dm : Deployment) (w : World σ) :
    (deleteDeployment client dm w).1 =
      match (client.deploymentsDelete dm.GetNamespace dm.GetName w.server).1 with
      | some err => .panic err
      | none => .ok () := by
  unfold deleteDeployment World.deploymentsDelete
  rcases h : client.deploymentsDelete dm.GetNamespace dm.GetName w.server with ⟨res, srv⟩
  cases res <;> rfl

/-- C2: `deleteDeployment` panics with the server's error whenever the workload
delete is answered with an error; and in every reachable state whose recorded calls
contain a workload delete answered with an error, the process has panicked with that
error after the signal was received, that delete is the last recorded call, no delete
was recorded before it, no service delete is recorded, and no later event changes
the state. -/
theorem failed_workload_delete_aborts_shutdown
    (client : Interface σ) (env : Env) (srv : σ) (es : List Event) (ns name msg : String)
    (hfail : ⟨.deleteDeployment ns name, .error msg⟩ ∈ (run client env srv es).world.calls) :
    (∀ dm w, (deleteDeployment client dm w).1 =
      match (client.deploymentsDelete dm.GetNamespace dm.GetName w.server).1 with
      | some err => .panic err
      | none => .ok ()) ∧
    (run client env srv es).status = .panicked msg ∧
    (run client env srv es).signalled = true ∧
    (∃ before, (run client env srv es).world.calls =
        before ++ [⟨.deleteDeployment ns name, .error msg⟩] ∧
      ∀ r ∈ before, r.call.isDelete = false) ∧
    (∀ r ∈ (run client env srv es).world.calls, r.call.isDeleteService = false) ∧
    (∀ es2, run client env srv (es ++ es2) = run client env srv es) := by
  have hI := Inv_run client env srv es
  refine ⟨deleteDeployment_outcome client, ?_⟩
  obtain ⟨hst, before, hc, _, hmain, hcall⟩ := hI.failed hfail rfl
  have hfrozen := run_frozen_of_panicked client env srv es hst
  revert hfrozen
  generalize run client env srv es = s at hI hst hc hmain hcall
  intro hfrozen
  have hpend : s.pc.pending = some (.deleteDeployment ns name) := by
    rcases hcall with hg | hp
    · cases hg
    · exact hp
  obtain ⟨dm, sm, hp⟩ := Pc.eq_deleteDeployment_of_pending hpend
  rw [hp] at hmain
  have hbefore : ∀ r ∈ before, r.call.isDelete = false := by
    intro r hr
    cases hd : r.call.isDelete with
    | false => rfl
    | true =>
      have hm : r ∈ before.filter CallRecord.isMain :=
        List.mem_filter.2 ⟨hr, isMain_of_isDelete r hd⟩
      rw [hmain] at hm
      simp only [Pc.completed, List.mem_cons, List.mem_singleton, List.not_mem_nil,
        or_false] at hm
      rcases hm with rfl | rfl <;> cases hd
  refine ⟨hst, ?_, ⟨before, hc, hbefore⟩, ?_, hfrozen⟩
  · rw [hI.signalled_eq, hp]; rfl
  · intro r hr
    rw [hc] at hr
    rcases List.mem_append.1 hr with hr | hr
    · have := hbefore r hr
      cases hcl : r.call <;> rw [hcl] at this <;> first | rfl | cases this
    · rw [List.mem_singleton.1 hr]; rfl

/-- Against a server that rejects the workload delete, the shutdown run panics with
the server's error and records no service delete. -/
theorem failed_workload_delete_aborts_shutdown_witness :
    (⟨.deleteDeployment "default" "hello-app1", .error "forbidden"⟩ : CallRecord) ∈
      (run (scriptedClient { deleteDeployment := some "forbidden" }) inClusterEnv ()
        shutdownSchedule).world.calls ∧
    (run (scriptedClient { deleteDeployment := some "forbidden" }) inClusterEnv ()
      shutdownSchedule).status = .panicked "forbidden" ∧
    (∀ r ∈ (run (scriptedClient { deleteDeployment := some "forbidden" }) inClusterEnv ()
      shutdownSchedule).world.calls, r.call.isDeleteService = false) :=
  have h := failed_workload_delete_aborts_shutdown
    (scriptedClient { deleteDeployment := some "forbidden" }) inClusterEnv ()
    shutdownSchedule "default" "hello-app1" "forbidden" (by decide)
  ⟨by decide, h.2.1, h.2.2.2.2.1⟩

/-! ## Deletes come after the signal and after both creates -/

theorem pairwise_of_filter_isMain {R : CallRecord → CallRecord → Prop} {l : List CallRecord}
    (h : (l.filter CallRecord.isMain).Pairwise R)
    (hR : ∀ a b, ¬R a b → a.isMain = true ∧ b.isMain = true) : l.Pairwise R := by
  induction l with
  | nil => exact List.Pairwise.nil
  | cons x xs ih =>
    cases hx : x.isMain with
    | true =>
      rw [List.filter_cons_of_pos hx, List.pairwise_cons] at h
      refine List.pairwise_cons.2 ⟨?_, ih h.2⟩
      intro y hy
      by_contra hn
      exact hn (h.1 y (List.mem_filter.2 ⟨hy, (hR x y hn).2⟩))
    | false =>
      rw [List.filter_cons_of_neg (by simp [hx])] at h
      refine List.pairwise_cons.2 ⟨?_, ih h⟩
      intro y _
      by_contra hn
      have := (hR x y hn).1
      rw [hx] at this
      cases this

theorem Inv.main_calls_pairwise {s : State σ} (h : Inv s) :
    (s.world.calls.filter CallRecord.isMain).Pairwise
      (fun a b => ¬(a.call.isDelete = true ∧ b.call.isCreate = true)) := by
  rcases h.main_calls with hm | ⟨call, msg, _, hpend, hm⟩
  · rw [hm]
    cases s.pc <;>
      simp [Pc.completed, createdDeploymentRecord, createdServiceRecord,
        deletedDeploymentRecord, deletedServiceRecord, ApiCall.isDelete, ApiCall.isCreate]
  · rw [hm]
    cases hp : s.pc <;> rw [hp] at hpend <;> simp [Pc.pending] at hpend <;> subst hpend <;>
      simp [Pc.completed, createdDeploymentRecord, createdServiceRecord,
        deletedDeploymentRecord, deletedServiceRecord, ApiCall.isDelete, ApiCall.isCreate,
        List.pairwise_append]

theorem Inv.delete_after_signal {s : State σ} (h : Inv s) {r : CallRecord}
    (hr : r ∈ s.world.calls) (hd : r.call.isDelete = true) :
    s.signalled = true ∧ ∃ dm sm, s.world.calls.filter (fun r => r.call.isCreate) =
      [createdDeploymentRecord dm, createdServiceRecord sm] := by
  have hm : r ∈ s.world.calls.filter CallRecord.isMain :=
    List.mem_filter.2 ⟨hr, isMain_of_isDelete r hd⟩
  rw [h.signalled_eq, filter_via_main _ isMain_of_isCreate]
  rcases h.main_calls with hmc | ⟨call, msg, _, hpend, hmc⟩
  · rw [hmc] at hm ⊢
    cases hp : s.pc <;> rw [hp] at hm <;> simp [Pc.completed] at hm
    all_goals first
      | exact ⟨rfl, _, _, rfl⟩
      | (rcases hm with rfl | rfl <;> cases hd)
  · rw [hmc] at hm ⊢
    cases hp : s.pc <;> rw [hp] at hpend hm <;> simp [Pc.pending] at hpend <;> subst hpend <;>
      simp [Pc.completed] at hm
    all_goals first
      | exact ⟨rfl, _, _, rfl⟩
      | (rcases hm with rfl | rfl <;> cases hd)

/-- C3: in every reachable state, if a delete call has been recorded then the
termination signal has been received and the create records are exactly the
workload create and then the service create, both answered with a descriptor; and
no delete record precedes a create record in the recorded call sequence. -/
theorem deletes_only_after_signal_and_creates
    (client : Interface σ) (env : Env) (srv : σ) (es : List Event) :
    ((∃ r ∈ (run client env srv es).world.calls, r.call.isDelete = true) →
      (run client env srv es).signalled = true ∧
      ∃ dm sm, (run client env srv es).world.calls.filter (fun r => r.call.isCreate) =
        [createdDeploymentRecord dm, createdServiceRecord sm]) ∧
    (run client env srv es).world.calls.Pairwise
      (fun a b => ¬(a.call.isDelete = true ∧ b.call.isCreate = true)) := by
  have hI := Inv_run client env srv es
  refine ⟨fun ⟨r, hr, hd⟩ => hI.delete_after_signal hr hd, ?_⟩
  refine pairwise_of_filter_isMain hI.main_calls_pairwise ?_
  intro a b hab
  have hd : a.call.isDelete = true := by
    cases h : a.call.isDelete with
    | true => rfl
    | false => exact absurd (fun hh => by rw [h] at hh; cases hh.1) hab
  have hc : b.call.isCreate = true := by
    cases h : b.call.isCreate with
    | true => rfl
    | false => exact absurd (fun hh => by rw [h] at hh; cases hh.2) hab
  exact ⟨isMain_of_isDelete a hd, isMain_of_isCreate b hc⟩

/-- The shutdown run against the in-memory server records deletes, after the signal
and after both creates. -/
theorem deletes_only_after_signal_and_creates_witness :
    (∃ r ∈ (run fakeClient inClusterEnv {} shutdownSchedule).world.calls,
      r.call.isDelete = true) ∧
    (run fakeClient inClusterEnv {} shutdownSchedule).signalled = true ∧
    (run fakeClient inClusterEnv {} shutdownSchedule).world.calls.Pairwise
      (fun a b => ¬(a.call.isDelete = true ∧ b.call.isCreate = true)) :=
  have h := deletes_only_after_signal_and_creates fakeClient inClusterEnv {} shutdownSchedule
  ⟨by decide, (h.1 (by decide)).1, h.2⟩

/-! ## The observer loop -/

theorem Pc.created_mem_completed {pc : Pc} {dm : Deployment} (h : pc.started = some dm) :
    createdDeploymentRecord dm ∈ pc.completed := by
  cases pc <;> simp [Pc.started] at h <;> subst h <;> simp [Pc.completed]

theorem Inv.completed_subset {s : State σ} (h : Inv s) {r : CallRecord}
    (hr : r ∈ s.pc.completed) : r ∈ s.world.calls := by
  rcases h.main_calls with hm | ⟨call, msg, _, _, hm⟩
  · rw [← hm] at hr; exact (List.mem_filter.1 hr).1
  · have : r ∈ s.world.calls.filter CallRecord.isMain := by
      rw [hm]; exact List.mem_append_left _ hr
    exact (List.mem_filter.1 this).1

/-- C7 (amended): in every reachable state, (1) an iteration of the observer that is
about to fetch records exactly one more call, a get of the workload in the fixed
namespace "default" (the variable `namespace`, not the namespace field of the
returned descriptor) under the name of the descriptor `createDeployment` returned,
with which the observer was started; (2) after a get that succeeded the
iteration records no further call, prints the name of the fetched descriptor and
returns to the fetch; (3) every recorded get is a get in that namespace under the
name of the descriptor that the recorded workload create returned; (4) the names
reported on standard output, followed by the name fetched and not yet printed if the
observer stands between the get and the print, are the names of the descriptors the
successful gets fetched, in order; (5) a get answered with an error is the last
recorded call, the process has panicked with that error, and no later event changes
the state. -/
theorem observer_gets_report_and_abort
    (client : Interface σ) (env : Env) (srv : σ) (es : List Event) :
    (∀ dm, (run client env srv es).status = .running →
      (run client env srv es).observer = .get dm →
      ∃ res, (step client env (run client env srv es) .observer).world.calls =
        (run client env srv es).world.calls ++
          [⟨.getDeployment «namespace» dm.GetName, res⟩]) ∧
    (∀ dm read, (run client env srv es).status = .running →
      (run client env srv es).observer = .report dm read →
      (step client env (run client env srv es) .observer).world.calls =
        (run client env srv es).world.calls ∧
      (step client env (run client env srv es) .observer).world.out =
        (run client env srv es).world.out ++ [.readDeployment «namespace» read.GetName] ∧
      (step client env (run client env srv es) .observer).observer = .get dm) ∧
    (∀ r ∈ (run client env srv es).world.calls, r.call.isGet = true →
      ∃ dm, createdDeploymentRecord dm ∈ (run client env srv es).world.calls ∧
        (run client env srv es).observer.captured = some dm ∧
        r.call = .getDeployment «namespace» dm.GetName) ∧
    ((run client env srv es).world.out.filterMap Output.readName ++
        (run client env srv es).observer.unreported =
      (run client env srv es).world.calls.filterMap CallRecord.fetchedName) ∧
    (∀ r ∈ (run client env srv es).world.calls, ∀ msg, r.call.isGet = true →
      r.result = .error msg →
      (run client env srv es).status = .panicked msg ∧
      (∃ before, (run client env srv es).world.calls = before ++ [r]) ∧
      ∀ es2, run client env srv (es ++ es2) = run client env srv es) := by
  have hI := Inv_run client env srv es
  refine ⟨?_, ?_, ?_, hI.reports, ?_⟩
  · intro dm hst hobs
    rcases deploymentsGet_cases client «namespace» dm.GetName
        (run client env srv es).world with ⟨read, srv2, hg⟩ | ⟨msg, srv2, hg⟩
    · exact ⟨.deployment read, by simp [step, hst, stepObserver, hobs, hg]⟩
    · exact ⟨.error msg, by simp [step, hst, stepObserver, hobs, hg]⟩
  · intro dm read hst hobs
    simp [step, hst, stepObserver, hobs, World.print]
  · intro r hr hget
    obtain ⟨dm, hdm, hcall⟩ := hI.gets r hr hget
    exact ⟨dm, hI.completed_subset (Pc.created_mem_completed hdm),
      hI.observer_eq.trans hdm, hcall⟩
  · intro r hr msg _ herr
    obtain ⟨hst, before, hc, _, _, _⟩ := hI.failed hr herr
    exact ⟨hst, ⟨before, hc⟩, run_frozen_of_panicked client env srv es hst⟩

/-- C7 (counterexample): against a server that returns the created descriptor with
namespace "kube-system", the descriptor the observer holds is
("kube-system", "hello-app1"), yet the get it issues is scoped to "default"; no get
with the namespace of the returned descriptor is recorded. -/
theorem observer_get_ignores_returned_namespace :
    (run (relocatingClient "kube-system") inClusterEnv () firstPollSchedule).observer.captured.map
        (fun dm => (dm.GetNamespace, dm.GetName)) = some ("kube-system", "hello-app1") ∧
    (run (relocatingClient "kube-system") inClusterEnv () firstPollSchedule).world.calls.map
        CallRecord.call =
      [.createDeployment "default" deploymentObject, .createService "default" serviceObject,
        .getDeployment "default" "hello-app1"] ∧
    ApiCall.getDeployment "kube-system" "hello-app1" ∉
      (run (relocatingClient "kube-system") inClusterEnv () firstPollSchedule).world.calls.map
        CallRecord.call := by
  decide

/-- Against a server that answers one get and fails the next: the first fetching
iteration records one get for "hello-app1" in "default"; after the second get the
process has panicked and stays as it is. -/
theorem observer_gets_report_and_abort_witness :
    (∃ res, (step getFailsLaterClient inClusterEnv
        (run getFailsLaterClient inClusterEnv 1 [.main, .main, .main, .main])
        .observer).world.calls =
      (run getFailsLaterClient inClusterEnv 1 [.main, .main, .main, .main]).world.calls ++
        [⟨.getDeployment "default" "hello-app1", res⟩]) ∧
    (run getFailsLaterClient inClusterEnv 1 pollSchedule).world.calls.map CallRecord.call =
      [.createDeployment "default" deploymentObject, .createService "default" serviceObject,
        .getDeployment "default" "hello-app1", .getDeployment "default" "hello-app1"] ∧
    (run getFailsLaterClient inClusterEnv 1 pollSchedule).world.out.filterMap
      Output.readName = ["hello-app1"] ∧
    (run getFailsLaterClient inClusterEnv 1 pollSchedule).status =
      .panicked "connection refused" ∧
    (∀ es2, run getFailsLaterClient inClusterEnv 1 (pollSchedule ++ es2) =
      run getFailsLaterClient inClusterEnv 1 pollSchedule) :=
  have h0 := observer_gets_report_and_abort getFailsLaterClient inClusterEnv 1
    [.main, .main, .main, .main]
  have h := observer_gets_report_and_abort getFailsLaterClient inClusterEnv 1 pollSchedule
  have h4 := h.2.2.2.2 ⟨.getDeployment "default" "hello-app1", .error "connection refused"⟩
    (by decide) "connection refused" rfl rfl
  ⟨h0.1 deploymentObject (by decide) (by decide), by decide, by decide, h4.1, h4.2.2⟩

/-! ## Errors are fatal -/

theorem isMain_of_isCreateDeployment (r : CallRecord) (h : r.call.isCreateDeployment = true) :
    r.isMain = true := by
  cases r with
  | mk call result =>
    cases call <;> simp_all [CallRecord.isMain, ApiCall.isGet, ApiCall.isCreateDeployment]

theorem isMain_of_isCreateService (r : CallRecord) (h : r.call.isCreateService = true) :
    r.isMain = true := by
  cases r with
  | mk call result =>
    cases call <;> simp_all [CallRecord.isMain, ApiCall.isGet, ApiCall.isCreateService]

theorem Inv.creates_at_most_once {s : State σ} (h : Inv s) :
    (s.world.calls.filter (fun r => r.call.isCreateDeployment)).length ≤ 1 ∧
    (s.world.calls.filter (fun r => r.call.isCreateService)).length ≤ 1 := by
  rw [filter_via_main _ isMain_of_isCreateDeployment,
    filter_via_main _ isMain_of_isCreateService]
  rcases h.main_calls with hm | ⟨call, msg, _, hpend, hm⟩
  · rw [hm]
    cases s.pc <;>
      simp [Pc.completed, createdDeploymentRecord, createdServiceRecord,
        deletedDeploymentRecord, deletedServiceRecord, ApiCall.isCreateDeployment,
        ApiCall.isCreateService]
  · rw [hm]
    cases hp : s.pc <;> rw [hp] at hpend <;> simp [Pc.pending] at hpend <;> subst hpend <;>
      simp [Pc.completed, createdDeploymentRecord, createdServiceRecord,
        deletedDeploymentRecord, deletedServiceRecord, ApiCall.isCreateDeployment,
        ApiCall.isCreateService, List.filter_append]

/-- Before the `go` statement no get is recorded, so every record is a call of `main`. -/
theorem Inv.before_eq_completed {s : State σ} (h : Inv s) (hs : s.pc.started = none)
    {before : List CallRecord} {r : CallRecord} (hc : s.world.calls = before ++ [r])
    (hmain : before.filter CallRecord.isMain = s.pc.completed) : before = s.pc.completed := by
  rw [← hmain]
  refine (filter_isMain_eq_self ?_).symm
  intro x hx hg
  obtain ⟨dm, hdm, _⟩ := h.gets x (by rw [hc]; exact List.mem_append_left _ hx) hg
  rw [hs] at hdm
  cases hdm

/-- C9: in every reachable state, at most one workload create and at most one
service create are recorded; a call answered with an error is the last recorded
call, every earlier call succeeded, the process has panicked with that error and no
later event changes the state; if the workload create failed it is the only recorded
call; if the service create failed the recorded calls are the successful workload
create and the failed service create, with no get and no delete. -/
theorem api_errors_are_fatal
    (client : Interface σ) (env : Env) (srv : σ) (es : List Event) :
    ((run client env srv es).world.calls.filter
        (fun r => r.call.isCreateDeployment)).length ≤ 1 ∧
    ((run client env srv es).world.calls.filter
        (fun r => r.call.isCreateService)).length ≤ 1 ∧
    (∀ r ∈ (run client env srv es).world.calls, ∀ msg, r.result = .error msg →
      (run client env srv es).status = .panicked msg ∧
      (∃ before, (run client env srv es).world.calls = before ++ [r] ∧
        ∀ x ∈ before, x.ok = true) ∧
      ∀ es2, run client env srv (es ++ es2) = run client env srv es) ∧
    (∀ r ∈ (run client env srv es).world.calls, ∀ msg,
      r.call.isCreateDeployment = true → r.result = .error msg →
      (run client env srv es).world.calls =
        [⟨.createDeployment «namespace» deploymentObject, .error msg⟩]) ∧
    (∀ r ∈ (run client env srv es).world.calls, ∀ msg,
      r.call.isCreateService = true → r.result = .error msg →
      ∃ dm, (run client env srv es).world.calls =
        [createdDeploymentRecord dm,
          ⟨.createService «namespace» serviceObject, .error msg⟩]) := by
  have hI := Inv_run client env srv es
  refine ⟨hI.creates_at_most_once.1, hI.creates_at_most_once.2, ?_, ?_, ?_⟩
  · intro r hr msg herr
    obtain ⟨hst, before, hc, hok, _, _⟩ := hI.failed hr herr
    exact ⟨hst, ⟨before, hc, hok⟩, run_frozen_of_panicked client env srv es hst⟩
  · intro r hr msg hcd herr
    obtain ⟨_, before, hc, _, hmain, hcall⟩ := hI.failed hr herr
    generalize run client env srv es = s at hI hc hmain hcall
    obtain ⟨call, result⟩ := r
    simp only at hcd herr hcall
    subst herr
    rcases hcall with hg | hpend
    · cases call <;> simp [ApiCall.isGet, ApiCall.isCreateDeployment] at hg hcd
    · cases hp : s.pc <;> rw [hp] at hpend <;> simp [Pc.pending] at hpend <;> subst hpend <;>
        simp [ApiCall.isCreateDeployment] at hcd
      have hb := hI.before_eq_completed (by rw [hp]; rfl) hc hmain
      rw [hc, hb, hp]; rfl
  · intro r hr msg hcs herr
    obtain ⟨_, before, hc, _, hmain, hcall⟩ := hI.failed hr herr
    generalize run client env srv es = s at hI hc hmain hcall
    obtain ⟨call, result⟩ := r
    simp only at hcs herr hcall
    subst herr
    rcases hcall with hg | hpend
    · cases call <;> simp [ApiCall.isGet, ApiCall.isCreateService] at hg hcs
    · cases hp : s.pc <;> rw [hp] at hpend <;> simp [Pc.pending] at hpend <;> subst hpend <;>
        simp [ApiCall.isCreateService] at hcs
      rename_i dm
      have hb := hI.before_eq_completed (by rw [hp]; rfl) hc hmain
      exact ⟨dm, by rw [hc, hb, hp]; rfl⟩

/-- Against a server that rejects the service create the recorded calls are the
workload create and the failed service create; against one that rejects the workload
create the failed create is the only call. -/
theorem api_errors_are_fatal_witness :
    (∃ dm, (run (scriptedClient { createService := some "forbidden" }) inClusterEnv ()
        shutdownSchedule).world.calls =
      [createdDeploymentRecord dm,
        ⟨.createService "default" serviceObject, .error "forbidden"⟩]) ∧
    (run (scriptedClient { createService := some "forbidden" }) inClusterEnv ()
        shutdownSchedule).status = .panicked "forbidden" ∧
    (run (scriptedClient { createDeployment := some "forbidden" }) inClusterEnv ()
        shutdownSchedule).world.calls =
      [⟨.createDeployment "default" deploymentObject, .error "forbidden"⟩] :=
  have h := api_errors_are_fatal (scriptedClient { createService := some "forbidden" })
    inClusterEnv () shutdownSchedule
  have h2 := api_errors_are_fatal (scriptedClient { createDeployment := some "forbidden" })
    inClusterEnv () shutdownSchedule
  ⟨h.2.2.2.2 ⟨.createService "default" serviceObject, .error "forbidden"⟩ (by decide)
      "forbidden" rfl rfl,
    (h.2.2.1 ⟨.createService "default" serviceObject, .error "forbidden"⟩ (by decide)
      "forbidden" rfl).1,
    h2.2.2.2.1 ⟨.createDeployment "default" deploymentObject, .error "forbidden"⟩ (by decide)
      "forbidden" rfl rfl⟩

end Practice2
